import Mathlib

/-!
# icp.token: escrow and receipt state machine

A shallow embedding of `contracts/icp.token/icp.token.cpp`.

* Account names (`eosio::name`) are their 64-bit values, as natural numbers.
* An `asset` is an `int64_t` amount with a symbol (the raw 64-bit value of
  `eosio::symbol`: precision in the low byte, symbol code above it).  Amounts are
  integers; every arithmetic step the code performs on them is wrapped to the
  signed 64-bit range by `wrap64`, as the compiled contract does.  Signed overflow
  is undefined in C++, so a property about the exact result of such a step assumes
  that the step does not overflow (`in_int64`).
* A `multi_index` table is the list of its rows; rows are addressed by primary key.
* An action handler is a function `State → Except String State`: `check`,
  `require_auth` and failed table operations abort with their message, and an
  aborted action leaves no trace (`commit`).
* Inline actions sent by a handler are appended to `State.actions`, notifications
  (`require_recipient`) to `State.notified`.
* Resource accounting (the RAM payer of `emplace` and `modify`) and the chain's
  permission check on inline actions are outside the model.
-/

namespace icp

/-! ## Values -/

/-- The 64-bit value of an `eosio::name`. -/
abbrev AccountName := Nat

/-- Encoding of one character of a name, `name::char_to_symbol`. -/
def char_to_symbol (c : Char) : Nat :=
  if 'a'.toNat ≤ c.toNat ∧ c.toNat ≤ 'z'.toNat then (c.toNat - 'a'.toNat) + 6
  else if '1'.toNat ≤ c.toNat ∧ c.toNat ≤ '5'.toNat then (c.toNat - '1'.toNat) + 1
  else 0

/-- Value of the name literal with the given characters (at most 12 of them here):
character `i` occupies the five bits starting at bit `64 - 5 * (i + 1)`. -/
def name_value_from (i : Nat) : List Char → Nat
  | [] => 0
  | c :: cs => (char_to_symbol c % 32) * 2 ^ (64 - 5 * (i + 1)) + name_value_from (i + 1) cs

/-- The name literal `"..."_n` (for literals of at most 12 characters). -/
def N (str : String) : AccountName := name_value_from 0 str.toList

/-- Literal `"icpreceive"_n`. -/
def N_icpreceive : AccountName := N "icpreceive"
/-- Literal `"icpreceipt"_n`. -/
def N_icpreceipt : AccountName := N "icpreceipt"
/-- Literal `"sendaction"_n`. -/
def N_sendaction : AccountName := N "sendaction"
/-- Literal `"transfer"_n`. -/
def N_transfer : AccountName := N "transfer"
/-- Literal `"callback"_n`. -/
def N_callback : AccountName := N "callback"
/-- Literal `"active"_n`. -/
def N_active : AccountName := N "active"

/-- Wrap an integer to the range of `int64_t` (two's complement). -/
def wrap64 (x : Int) : Int := (x + 2 ^ 63) % 2 ^ 64 - 2 ^ 63

/-- The constant `std::numeric_limits<int64_t>::max()`. -/
def int64_max : Int := 2 ^ 63 - 1

/-- The constant `asset::max_amount`, `(1LL << 62) - 1`. -/
def max_amount : Int := 2 ^ 62 - 1

/-- An `eosio::asset`: amount and raw symbol value. -/
structure asset where
  amount : Int
  symbol : Nat
deriving DecidableEq, Repr

/-- Symbol code of a raw symbol value, `symbol::code().raw()`: the value above the
precision byte. -/
def symbol_code (sym : Nat) : Nat := sym / 256

/-- All remaining bytes of a symbol code are zero (the inner loop of
`symbol_code::is_valid`; the code has at most seven bytes). -/
def symbol_code_rest_zero (code : Nat) : Bool := code % 2 ^ 56 == 0

/-- The loop of `symbol_code::is_valid` with `n` bytes left to inspect: upper-case
letters followed only by zero bytes. -/
def symbol_code_valid_from : Nat → Nat → Bool
  | 0, _ => true
  | n + 1, code =>
    let c := code % 256
    if 'A'.toNat ≤ c ∧ c ≤ 'Z'.toNat then
      if (code / 256) % 256 = 0 then symbol_code_rest_zero (code / 256)
      else symbol_code_valid_from n (code / 256)
    else false

/-- Validity of a symbol, `symbol::is_valid`. -/
def symbol_is_valid (sym : Nat) : Bool := symbol_code_valid_from 7 (symbol_code sym)

/-- Range test `asset::is_amount_within_range`. -/
def asset.is_amount_within_range (a : asset) : Bool :=
  decide (-max_amount ≤ a.amount) && decide (a.amount ≤ max_amount)

/-- Validity test `asset::is_valid`. -/
def asset.is_valid (a : asset) : Bool :=
  a.is_amount_within_range && symbol_is_valid a.symbol

/-- Abort unless the condition holds, `eosio::check`. -/
def check (b : Bool) (msg : String) : Except String Unit :=
  if b then .ok () else .error msg

/-- In-place subtraction `asset::operator-=`: the symbols must agree and the
(wrapped) difference must lie within `±max_amount`. -/
def asset.sub_assign (a b : asset) : Except String asset := do
  check (b.symbol == a.symbol) "attempt to subtract asset with different symbol"
  let amount := wrap64 (a.amount - b.amount)
  check (decide (-max_amount ≤ amount)) "subtraction underflow"
  check (decide (amount ≤ max_amount)) "subtraction overflow"
  pure { a with amount := amount }

/-- In-place addition `asset::operator+=`: the symbols must agree and the
(wrapped) sum must lie within `±max_amount`. -/
def asset.add_assign (a b : asset) : Except String asset := do
  check (b.symbol == a.symbol) "attempt to add asset with different symbol"
  let amount := wrap64 (a.amount + b.amount)
  check (decide (-max_amount ≤ amount)) "addition underflow"
  check (decide (amount ≤ max_amount)) "addition overflow"
  pure { a with amount := amount }

/-! ## Tables -/

/-- The singleton row `collaborative_contract`: local channel contract and peer
contract. -/
structure collaborative_contract where
  icp : AccountName := 0
  peer : AccountName := 0
deriving DecidableEq, Repr

/-- A row of the `locked` table (scope `_self`), primary key `seq`. -/
structure locked_row where
  seq : Nat
  contract : AccountName
  account : AccountName
  balance : asset
  refund : Bool
deriving DecidableEq, Repr

/-- A row of a `deposits` table; `scope` is the token contract the table is scoped
to, `pk` the primary key within that scope. -/
structure deposit_row where
  scope : AccountName
  pk : Nat
  account : AccountName
  balance : asset
deriving DecidableEq, Repr

/-- A row of a `stats` table; `scope` is the token contract, the primary key is the
symbol code of `supply`. -/
structure stat_row where
  scope : AccountName
  supply : asset
deriving DecidableEq, Repr

/-- A wrapped balance: the balance `owner` holds of the wrapped representation of
`contract`. -/
structure account_row where
  contract : AccountName
  owner : AccountName
  balance : asset
deriving DecidableEq, Repr

/-- A permission level: actor and permission name. -/
structure permission_level where
  actor : AccountName
  permission : AccountName
deriving DecidableEq, Repr

/-- Argument record `transfer_args`. -/
structure transfer_args where
  from_ : AccountName
  to_ : AccountName
  quantity : asset
  memo : String
deriving DecidableEq, Repr

/-- Argument record `icp_transfer_args`. -/
structure icp_transfer_args where
  contract : AccountName
  from_ : AccountName
  to_ : AccountName
  quantity : asset
  memo : String
  refund : Nat
deriving DecidableEq, Repr

/-- Payload of an action built inside `icp_transfer`. -/
inductive packet_data where
  | receive (args : icp_transfer_args)
  | flag (b : Bool)
deriving DecidableEq, Repr

/-- An action that `icp_transfer` packs into the `sendaction` request. -/
structure packed_action where
  authorization : List permission_level
  account : AccountName
  name : AccountName
  data : packet_data
deriving DecidableEq, Repr

/-- Argument record `icp_sendaction`: sequence number, packed outbound action,
expiration, packed receipt action. -/
structure icp_sendaction where
  seq : Nat
  send_action : packed_action
  expiration : Nat
  receive_action : packed_action
deriving DecidableEq, Repr

/-- Payload of an inline action sent by the contract. -/
inductive action_data where
  | transfer (args : transfer_args)
  | sendaction (args : icp_sendaction)
deriving DecidableEq, Repr

/-- An inline action sent by the contract. -/
structure action where
  authorization : List permission_level
  account : AccountName
  name : AccountName
  data : action_data
deriving DecidableEq, Repr

/-- Contract state: the tables, followed by the inline actions sent and the
accounts notified so far. -/
structure State where
  co : Option collaborative_contract
  locked : List locked_row
  deposits : List deposit_row
  stats : List stat_row
  accounts : List account_row
  actions : List action
  notified : List AccountName
deriving DecidableEq, Repr

/-- Execution context of an action: the receiving contract `_self`, the
authorizations the action carries, and what the chain answers to `is_account` and
`next_packet_seq`; `expired` is the value of `receipt_status::expired`. -/
structure Context where
  self : AccountName
  auths : List permission_level
  is_account : AccountName → Bool
  next_packet_seq : AccountName → Nat
  expired : Nat

/-- Outcome of running a handler as a transaction: a failed handler leaves the
state as it was. -/
def commit (f : State → Except String State) (s : State) : State :=
  match f s with
  | .ok s' => s'
  | .error _ => s

/-! ## Authorization -/

/-- The action carries an authorization of `account`, `require_auth(account)`. -/
def require_auth (ctx : Context) (account : AccountName) : Except String Unit :=
  check (ctx.auths.any fun p => p.actor == account) "missing authority"

/-- The action carries exactly the authorization `account@permission`,
`require_auth2(account, permission)`. -/
def require_auth2 (ctx : Context) (account permission : AccountName) : Except String Unit :=
  check (ctx.auths.any fun p => p.actor == account && p.permission == permission)
    "missing authority"

/-- Notify `account`, `require_recipient(account)`: an account is notified once. -/
def require_recipient (account : AccountName) (s : State) : State :=
  if account ∈ s.notified then s else { s with notified := s.notified ++ [account] }

/-- Send an inline action, `action::send`. -/
def send (a : action) (s : State) : State :=
  { s with actions := s.actions ++ [a] }

/-! ## Table operations -/

/-- Lookup by primary key in the `locked` table, `locked::find`. -/
def locked_find (l : List locked_row) (seq : Nat) : Option locked_row :=
  l.find? fun r => r.seq == seq

/-- Removal of the row with primary key `seq` from the `locked` table,
`locked::erase`. -/
def locked_erase (l : List locked_row) (seq : Nat) : List locked_row :=
  l.filter fun r => r.seq != seq

/-- Insertion into the `locked` table, `locked::emplace`; a primary key is stored
only once. -/
def locked_emplace (l : List locked_row) (r : locked_row) : Except String (List locked_row) :=
  match locked_find l r.seq with
  | some _ => .error "could not insert object, most likely a uniqueness constraint was violated"
  | none => .ok (l ++ [r])

/-- Modelled from the spec: the secondary key `account_asset_key` of a deposit row,
declared in `icp.token.hpp`; the spec has the deposit table "secondary-indexed by
`(owner, asset-symbol)`". -/
def account_asset_key (account : AccountName) (balance : asset) : AccountName × Nat :=
  (account, balance.symbol)

/-- The row with the least primary key in a list of deposit rows. -/
def least_pk : List deposit_row → Option deposit_row
  | [] => none
  | r :: rs =>
    match least_pk rs with
    | none => some r
    | some b => if b.pk < r.pk then some b else some r

/-- Lookup through the `accountasset` index of the deposits table of `scope`: the
first row in index order (secondary key, then primary key) with the given key. -/
def deposits_find (t : List deposit_row) (scope : AccountName) (key : AccountName × Nat) :
    Option deposit_row :=
  least_pk (t.filter fun r => r.scope == scope && account_asset_key r.account r.balance == key)

/-- Removal of the row with primary key `pk` from the deposits table of `scope`,
`deposits::erase`. -/
def deposits_erase (t : List deposit_row) (scope : AccountName) (pk : Nat) : List deposit_row :=
  t.filter fun r => !(r.scope == scope && r.pk == pk)

/-- Replacement of the balance of the row with primary key `pk` in the deposits
table of `scope`, `deposits::modify`. -/
def deposits_set_balance (t : List deposit_row) (scope : AccountName) (pk : Nat) (b : asset) :
    List deposit_row :=
  t.map fun r => if r.scope == scope && r.pk == pk then { r with balance := b } else r

/-- Lookup by primary key (symbol code) in the stats table of `scope`, `stats::find`. -/
def stats_find (t : List stat_row) (scope : AccountName) (code : Nat) : Option stat_row :=
  t.find? fun r => r.scope == scope && symbol_code r.supply.symbol == code

/-- Replacement of the supply of the row with primary key `code` in the stats table
of `scope`, `stats::modify`. -/
def stats_set_supply (t : List stat_row) (scope : AccountName) (code : Nat) (supply : asset) :
    List stat_row :=
  t.map fun r =>
    if r.scope == scope && symbol_code r.supply.symbol == code then { r with supply := supply }
    else r

/-- The wrapped balance row of `owner` for the symbol code `code` of `contract`. -/
def accounts_find (t : List account_row) (contract owner : AccountName) (code : Nat) :
    Option account_row :=
  t.find? fun r =>
    r.contract == contract && r.owner == owner && symbol_code r.balance.symbol == code

/-- Modelled from the spec: `add_balance` of `token.cpp`, which "credits `to`'s
wrapped balance": the balance `owner` holds of the wrapped `contract` token grows by
`value`; a first credit creates the balance. -/
def add_balance (contract owner : AccountName) (value : asset) (t : List account_row) :
    List account_row :=
  match accounts_find t contract owner (symbol_code value.symbol) with
  | none => t ++ [{ contract := contract, owner := owner, balance := value }]
  | some _ =>
    t.map fun r =>
      if r.contract == contract && r.owner == owner &&
          symbol_code r.balance.symbol == symbol_code value.symbol then
        { r with balance := { r.balance with amount := r.balance.amount + value.amount } }
      else r

/-- The wrapped balance amount `owner` holds for symbol code `code` of `contract`
(zero when there is no row). -/
def wrapped_balance (t : List account_row) (contract owner : AccountName) (code : Nat) : Int :=
  match accounts_find t contract owner code with
  | none => 0
  | some r => r.balance.amount

/-! ## The contract -/

/-- The member `_co`, loaded by the constructor: the stored configuration, or the
default (both names empty) when none is stored. -/
def get_co (s : State) : collaborative_contract :=
  s.co.getD {}

/-- The action `token::mint`. -/
def mint (ctx : Context) (contract to_ : AccountName) (quantity : asset) (s : State) :
    Except String State := do
  require_auth ctx ctx.self
  check (ctx.is_account to_) "to account does not exist"
  check quantity.is_valid "invalid quantity"
  check (decide (quantity.amount > 0)) "must mint positive quantity"
  let sym_name := symbol_code quantity.symbol
  match stats_find s.stats contract sym_name with
  | none => .error "token with symbol does not exist, create token before mint"
  | some st =>
    check (quantity.symbol == st.supply.symbol) "symbol precision mismatch"
    check (decide (quantity.amount ≤ wrap64 (int64_max - st.supply.amount)))
      "quantity exceeds available supply"
    let s1 := require_recipient to_ s
    let supply ← st.supply.add_assign quantity
    let s2 := { s1 with stats := stats_set_supply s1.stats contract sym_name supply }
    pure { s2 with accounts := add_balance contract to_ quantity s2.accounts }

/-- The dispatcher `token::icp_transfer`. -/
def icp_transfer (ctx : Context) (contract from_ icp_to : AccountName) (quantity : asset)
    (memo : String) (expiration : Nat) (refund : Bool) (s : State) : Except String State := do
  let co := get_co s
  check (co.peer != 0) "empty remote peer contract"
  check (co.icp != 0) "empty local icp contract"
  let seq := ctx.next_packet_seq co.icp
  let icp_send : packed_action :=
    { authorization := [], account := co.peer, name := N_icpreceive,
      data := .receive
        { contract := contract, from_ := from_, to_ := icp_to, quantity := quantity,
          memo := memo, refund := if refund then 1 else 0 } }
  let icp_receive : packed_action :=
    { authorization := [], account := ctx.self, name := N_icpreceipt, data := .flag false }
  let l ← locked_emplace s.locked
    { seq := seq, contract := contract, account := from_, balance := quantity, refund := refund }
  let s1 := { s with locked := l }
  pure (send
    { authorization := [{ actor := co.icp, permission := N_sendaction }],
      account := co.icp, name := N_sendaction,
      data := .sendaction
        { seq := seq, send_action := icp_send, expiration := expiration,
          receive_action := icp_receive } } s1)

/-- The action `token::icpreceive`; `refund` is the byte argument. -/
def icpreceive (ctx : Context) (contract _icp_from to_ : AccountName) (quantity : asset)
    (memo : String) (refund : Nat) (s : State) : Except String State := do
  require_auth2 ctx ctx.self N_callback
  check (decide (memo.utf8ByteSize ≤ 256)) "memo has more than 256 bytes"
  if refund = 0 then
    mint ctx contract to_ quantity s
  else
    pure (send
      { authorization := [{ actor := ctx.self, permission := N_active }],
        account := contract, name := N_transfer,
        data := .transfer
          { from_ := ctx.self, to_ := to_, quantity := quantity, memo := memo } } s)

/-- The action `token::icpreceipt`; `status` is the status byte, `data` the opaque
result bytes. -/
def icpreceipt (ctx : Context) (seq status : Nat) (_data : List Nat) (s : State) :
    Except String State := do
  require_auth2 ctx ctx.self N_callback
  match locked_find s.locked seq with
  | none => pure s
  | some it =>
    let s1 ←
      if status = ctx.expired then
        if !it.refund then
          pure (send
            { authorization := [{ actor := ctx.self, permission := N_active }],
              account := it.contract, name := N_transfer,
              data := .transfer
                { from_ := ctx.self, to_ := it.account, quantity := it.balance,
                  memo := "icp release locked asset" } } s)
        else
          mint ctx it.contract it.account it.balance s
      else pure s
    pure { s1 with locked := locked_erase s1.locked seq }

/-- The action `token::icptransfer`. -/
def icptransfer (ctx : Context) (contract from_ icp_to : AccountName) (quantity : asset)
    (memo : String) (expiration : Nat) (s : State) : Except String State := do
  require_auth ctx from_
  match deposits_find s.deposits contract (account_asset_key from_ quantity) with
  | none => .error "no deposit object found"
  | some dp =>
    check (decide (dp.balance.amount ≥ quantity.amount)) "overdrawn balance"
    let dps ←
      if dp.balance.amount = quantity.amount then
        pure (deposits_erase s.deposits contract dp.pk)
      else do
        let b ← dp.balance.sub_assign quantity
        pure (deposits_set_balance s.deposits contract dp.pk b)
    icp_transfer ctx contract from_ icp_to quantity memo expiration false
      { s with deposits := dps }

/-! ## The remaining handlers -/

/-- Modelled from the spec: `sub_balance` of `token.cpp`, which "debits `from`'s
wrapped balance (failing with `InsufficientBalanceError` if insufficient)": the
balance `owner` holds of the wrapped `contract` token shrinks by `value`, and a missing
or smaller balance aborts. -/
def sub_balance (contract owner : AccountName) (value : asset) (t : List account_row) :
    Except String (List account_row) :=
  match accounts_find t contract owner (symbol_code value.symbol) with
  | none => .error "no balance object found"
  | some r =>
    if r.balance.amount < value.amount then .error "overdrawn balance"
    else
      .ok (t.map fun x =>
        if x.contract == contract && x.owner == owner &&
            symbol_code x.balance.symbol == symbol_code value.symbol then
          { x with balance := { x.balance with amount := x.balance.amount - value.amount } }
        else x)

/-- The action `token::setcontracts`. -/
def setcontracts (ctx : Context) (icp peer : AccountName) (s : State) : Except String State := do
  require_auth ctx ctx.self
  check s.co.isNone "contracts already exist"
  pure { s with co := some { icp := icp, peer := peer } }

/-- The member function `token::burn`. -/
def burn (ctx : Context) (contract from_ : AccountName) (quantity : asset) (s : State) :
    Except String State := do
  check (ctx.is_account from_) "from account does not exist"
  check quantity.is_valid "invalid quantity"
  check (decide (quantity.amount > 0)) "must burn positive quantity"
  let sym_name := symbol_code quantity.symbol
  match stats_find s.stats contract sym_name with
  | none => .error "token with symbol does not exist, create token before burn"
  | some st =>
    check (quantity.symbol == st.supply.symbol) "symbol precision mismatch"
    check (decide (quantity.amount ≤ st.supply.amount)) "quantity exceeds available supply"
    let s1 := require_recipient from_ s
    let supply ← st.supply.sub_assign quantity
    let s2 := { s1 with stats := stats_set_supply s1.stats contract sym_name supply }
    let accounts ← sub_balance contract from_ quantity s2.accounts
    pure { s2 with accounts := accounts }

/-- The action `token::icprefund`. -/
def icprefund (ctx : Context) (contract from_ icp_to : AccountName) (quantity : asset)
    (memo : String) (expiration : Nat) (s : State) : Except String State := do
  require_auth ctx from_
  check (decide (memo.utf8ByteSize ≤ 256)) "memo has more than 256 bytes"
  let s1 ← burn ctx contract from_ quantity s
  icp_transfer ctx contract from_ icp_to quantity memo expiration true s1

/-- Value of one character of a name, `name::char_to_value`; any other character
aborts. -/
def char_to_value (c : Char) : Except String Nat :=
  if c = '.' then .ok 0
  else if '1'.toNat ≤ c.toNat ∧ c.toNat ≤ '5'.toNat then .ok (c.toNat - '1'.toNat + 1)
  else if 'a'.toNat ≤ c.toNat ∧ c.toNat ≤ 'z'.toNat then .ok (c.toNat - 'a'.toNat + 6)
  else .error "character is not in allowed character set for names"

/-- The loop of the `name` constructor over the first characters: shift by five bits
and add the value of the character. -/
def name_accumulate : Nat → List Char → Except String Nat
  | value, [] => .ok value
  | value, c :: cs => do
    let v ← char_to_value c
    name_accumulate ((value * 32) ||| v) cs

/-- The constructor `eosio::name(std::string_view)`: at most 13 characters, twelve of
five bits and a thirteenth of four bits. -/
def name_of_string (str : List Char) : Except String AccountName :=
  if str.length > 13 then .error "string is too long to be a valid name"
  else if str.isEmpty then .ok 0
  else do
    let n := min str.length 12
    let value ← name_accumulate 0 (str.take n)
    let value := value * 2 ^ (4 + 5 * (12 - n))
    match str.drop 12 with
    | [] => pure value
    | c :: _ => do
      let v ← char_to_value c
      if v > 15 then
        .error "thirteenth character in name cannot be a letter that comes after j"
      else pure (value ||| v)

/-- White space as `std::isspace` sees it in the C locale. -/
def is_space (c : Char) : Bool :=
  c.toNat == 32 || (decide (9 ≤ c.toNat) && decide (c.toNat ≤ 13))

/-- A decimal digit, `isdigit`. -/
def is_digit (c : Char) : Bool :=
  decide ('0'.toNat ≤ c.toNat) && decide (c.toNat ≤ '9'.toNat)

/-- Value of a run of decimal digits. -/
def decimal_value (ds : List Char) : Nat :=
  ds.foldl (fun acc d => acc * 10 + (d.toNat - '0'.toNat)) 0

/-- The conversion `std::stoul` (base 10) for the 32-bit `unsigned long` of the
contract's target: leading white space, an optional sign, then the longest run of
digits; no digits or a value above `2^32 - 1` abort. -/
def stoul (str : List Char) : Except String Nat :=
  let s1 := str.dropWhile is_space
  let neg := s1.head? == some '-'
  let s2 := if s1.head? == some '-' || s1.head? == some '+' then s1.drop 1 else s1
  let ds := s2.takeWhile is_digit
  if ds.isEmpty then .error "stoul: no conversion"
  else if decimal_value ds > 2 ^ 32 - 1 then .error "stoul: out of range"
  else .ok (if neg then (2 ^ 32 - decimal_value ds) % 2 ^ 32 else decimal_value ds)

/-- The list `p` is an initial segment of `l`; `memo.find(p) == 0`. -/
def starts_with : List Char → List Char → Bool
  | [], _ => true
  | _ :: _, [] => false
  | p :: ps, x :: xs => p == x && starts_with ps xs

/-- Position of the first occurrence of `c` in a list of characters. -/
def index_of_char (c : Char) : List Char → Option Nat
  | [] => none
  | x :: xs => if x = c then some 0 else (index_of_char c xs).map (· + 1)

/-- Position of the first occurrence of `c` at or after `pos`, `memo.find(c, pos)`;
`none` is `npos`. -/
def string_find_char (l : List Char) (c : Char) (pos : Nat) : Option Nat :=
  (index_of_char c (l.drop pos)).map (· + pos)

/-- The next primary key of the deposits table of `scope`,
`deposits::available_primary_key`: zero for an empty table, else one more than the
largest key, as long as that stays below the reserved keys. -/
def deposits_available_primary_key (t : List deposit_row) (scope : AccountName) :
    Except String Nat :=
  let rows := t.filter fun r => r.scope == scope
  let next :=
    if rows.isEmpty then 0
    else
      let pk := rows.foldl (fun m r => max m r.pk) 0
      if pk ≥ 2 ^ 64 - 2 then 2 ^ 64 - 2 else pk + 1
  if next < 2 ^ 64 - 2 then .ok next
  else .error "next primary key in table is at autoincrement limit"

/-- Insertion into a deposits table, `deposits::emplace`; a primary key is stored
only once within its scope. -/
def deposits_emplace (t : List deposit_row) (r : deposit_row) :
    Except String (List deposit_row) :=
  if t.any fun x => x.scope == r.scope && x.pk == r.pk then
    .error "could not insert object, most likely a uniqueness constraint was violated"
  else .ok (t ++ [r])

/-- The notification handler `token::icp_transfer_or_deposit`, run for a `transfer`
action of the token contract `contract`.  The memo is inspected as its sequence of
characters. -/
def icp_transfer_or_deposit (ctx : Context) (contract from_ to_ : AccountName)
    (quantity : asset) (memo : String) (s : State) : Except String State :=
  if to_ ≠ ctx.self then .ok s
  else if starts_with "icp ".toList memo.toList then
    match string_find_char memo.toList ' ' 4 with
    | none => .error "invalid icp token transfer memo"
    | some account_end => do
      let n := (memo.toList.drop 4).take (account_end - 4)
      let icp_to ← name_of_string n
      let h := memo.toList.drop (account_end + 1)
      let v ← stoul h
      let icp_expiration := v % 2 ^ 32
      icp_transfer ctx contract from_ icp_to quantity memo icp_expiration false s
  else
    match deposits_find s.deposits contract (account_asset_key from_ quantity) with
    | none => do
      let pk ← deposits_available_primary_key s.deposits contract
      let dps ← deposits_emplace s.deposits
        { scope := contract, pk := pk, account := from_, balance := quantity }
      pure { s with deposits := dps }
    | some it => do
      let b ← it.balance.add_assign quantity
      pure { s with deposits := deposits_set_balance s.deposits contract it.pk b }

/-! ## Quantities the properties speak about -/

/-- The value is representable as an `int64_t`. -/
def in_int64 (x : Int) : Prop := -2 ^ 63 ≤ x ∧ x ≤ 2 ^ 63 - 1

instance (x : Int) : Decidable (in_int64 x) := by
  unfold in_int64; infer_instance

/-- Primary keys of the deposits tables are unique within their scope. -/
def deposits_keys_unique (t : List deposit_row) : Prop :=
  (t.map fun r => (r.scope, r.pk)).Nodup

instance (t : List deposit_row) : Decidable (deposits_keys_unique t) := by
  unfold deposits_keys_unique; infer_instance

/-- Sum of the amounts of the deposit balances of symbol `sym` in the deposits table
of `contract`. -/
def deposit_total (t : List deposit_row) (contract : AccountName) (sym : Nat) : Int :=
  ((t.filter fun r => r.scope == contract && r.balance.symbol == sym).map
    fun r => r.balance.amount).sum

/-- Sum of the amounts of the escrow rows of `contract` and symbol `sym` that are not
refunds. -/
def escrow_total (l : List locked_row) (contract : AccountName) (sym : Nat) : Int :=
  ((l.filter fun r => !r.refund && r.contract == contract && r.balance.symbol == sym).map
    fun r => r.balance.amount).sum

/-- The action carries the callback authorization `_self@callback`. -/
def has_callback_auth (ctx : Context) : Prop :=
  { actor := ctx.self, permission := N_callback } ∈ ctx.auths

instance (ctx : Context) : Decidable (has_callback_auth ctx) := by
  unfold has_callback_auth; infer_instance

/-- The action carries an authorization of `account`. -/
def has_auth (ctx : Context) (account : AccountName) : Prop :=
  ∃ p ∈ ctx.auths, p.actor = account

instance (ctx : Context) (account : AccountName) : Decidable (has_auth ctx account) := by
  unfold has_auth; infer_instance

/-- The native transfer action the contract sends on `contract`. -/
def transfer_action (ctx : Context) (contract to_ : AccountName) (quantity : asset)
    (memo : String) : action :=
  { authorization := [{ actor := ctx.self, permission := N_active }],
    account := contract, name := N_transfer,
    data := .transfer { from_ := ctx.self, to_ := to_, quantity := quantity, memo := memo } }

/-! ## Sample data -/

/-- Raw value of the symbol `4,TOK`. -/
def TOK : Nat := 4 + 256 * (84 + 256 * (79 + 256 * 75))

/-- A context carrying the callback authorization. -/
def example_callback_ctx : Context :=
  { self := N "icptoken", auths := [{ actor := N "icptoken", permission := N_callback }],
    is_account := fun _ => true, next_packet_seq := fun _ => 3, expired := 2 }

/-- A context carrying the authorization of the user `alice`. -/
def example_alice_ctx : Context :=
  { self := N "icptoken", auths := [{ actor := N "alice", permission := N_active }],
    is_account := fun _ => true, next_packet_seq := fun _ => 3, expired := 2 }

/-- An escrow row of a plain transfer. -/
def example_escrow : locked_row :=
  { seq := 1, contract := N "eosio.token", account := N "alice",
    balance := { amount := 1000000, symbol := TOK }, refund := false }

/-- An escrow row of a refund. -/
def example_escrow_other : locked_row :=
  { seq := 2, contract := N "eosio.token", account := N "bob",
    balance := { amount := 5, symbol := TOK }, refund := true }

/-- A configured state with two escrow rows, one deposit and one supply row. -/
def example_state : State :=
  { co := some { icp := N "icp", peer := N "peertoken" },
    locked := [example_escrow, example_escrow_other],
    deposits := [{ scope := N "eosio.token", pk := 0, account := N "alice",
                   balance := { amount := 1000000, symbol := TOK } }],
    stats := [{ scope := N "eosio.token", supply := { amount := 70, symbol := TOK } }],
    accounts := [], actions := [], notified := [] }

/-- The deposit row of `alice` in the sample state. -/
def example_deposit : deposit_row :=
  { scope := N "eosio.token", pk := 0, account := N "alice",
    balance := { amount := 1000000, symbol := TOK } }

/-- The sample state after `alice` bridges `40.0000 TOK` of the deposit to `bob` under
sequence number 3. -/
def example_after_icptransfer : State :=
  { example_state with
    deposits := [{ scope := N "eosio.token", pk := 0, account := N "alice",
                   balance := { amount := 600000, symbol := TOK } }],
    locked := [example_escrow, example_escrow_other,
      { seq := 3, contract := N "eosio.token", account := N "alice",
        balance := { amount := 400000, symbol := TOK }, refund := false }],
    actions :=
      [{ authorization := [{ actor := N "icp", permission := N_sendaction }],
         account := N "icp", name := N_sendaction,
         data := .sendaction
           { seq := 3,
             send_action :=
               { authorization := [], account := N "peertoken", name := N_icpreceive,
                 data := .receive
                   { contract := N "eosio.token", from_ := N "alice", to_ := N "bob",
                     quantity := { amount := 400000, symbol := TOK }, memo := "",
                     refund := 0 } },
             expiration := 100,
             receive_action :=
               { authorization := [], account := N "icptoken", name := N_icpreceipt,
                 data := .flag false } } }] }

/-- The sample state in which `alice` holds `0.0050 TOK` of wrapped balance. -/
def example_wrapped_state : State :=
  { example_state with
    accounts := [{ contract := N "eosio.token", owner := N "alice",
                   balance := { amount := 50, symbol := TOK } }] }

/-- The state after `alice` refunds `0.0030 TOK` of the wrapped balance under
sequence number 3. -/
def example_after_icprefund : State :=
  { example_state with
    stats := [{ scope := N "eosio.token", supply := { amount := 40, symbol := TOK } }],
    accounts := [{ contract := N "eosio.token", owner := N "alice",
                   balance := { amount := 20, symbol := TOK } }],
    locked := [example_escrow, example_escrow_other,
      { seq := 3, contract := N "eosio.token", account := N "alice",
        balance := { amount := 30, symbol := TOK }, refund := true }],
    notified := [N "alice"],
    actions :=
      [{ authorization := [{ actor := N "icp", permission := N_sendaction }],
         account := N "icp", name := N_sendaction,
         data := .sendaction
           { seq := 3,
             send_action :=
               { authorization := [], account := N "peertoken", name := N_icpreceive,
                 data := .receive
                   { contract := N "eosio.token", from_ := N "alice", to_ := N "bob",
                     quantity := { amount := 30, symbol := TOK }, memo := "",
                     refund := 1 } },
             expiration := 9,
             receive_action :=
               { authorization := [], account := N "icptoken", name := N_icpreceipt,
                 data := .flag false } } }] }

/-- A memo of 257 bytes. -/
def example_long_memo : String := String.mk (List.replicate 257 'a')

/-- The sample state before `alice` has deposited anything. -/
def example_no_deposit_state : State :=
  { example_state with deposits := [] }

/-- The sample state in which the deposit row of `alice` holds the largest `int64_t`
amount, as stored by one plain-deposit notification of that amount. -/
def example_large_deposit_state : State :=
  { example_state with
    deposits := [{ scope := N "eosio.token", pk := 0, account := N "alice",
                   balance := { amount := 2 ^ 63 - 1, symbol := TOK } }] }

/-! ## Basic facts -/

theorem N_sendaction_ne_transfer : N_sendaction ≠ N_transfer := by decide

theorem check_ok_iff (b : Bool) (msg : String) : check b msg = .ok () ↔ b = true := by
  cases b <;> simp [check]

theorem check_true (msg : String) : check true msg = .ok () := rfl

theorem check_false (msg : String) : check false msg = .error msg := rfl

theorem require_auth2_of_callback (ctx : Context) (h : has_callback_auth ctx) :
    require_auth2 ctx ctx.self N_callback = .ok () := by
  unfold require_auth2
  rw [check_ok_iff, List.any_eq_true]
  exact ⟨_, h, by simp⟩

theorem require_auth2_without_callback (ctx : Context) (h : ¬ has_callback_auth ctx) :
    require_auth2 ctx ctx.self N_callback = .error "missing authority" := by
  unfold require_auth2
  have : (ctx.auths.any fun p => p.actor == ctx.self && p.permission == N_callback) = false := by
    rw [Bool.eq_false_iff]
    intro hany
    rw [List.any_eq_true] at hany
    obtain ⟨p, hp, hpe⟩ := hany
    apply h
    simp only [Bool.and_eq_true, beq_iff_eq] at hpe
    obtain ⟨h1, h2⟩ := hpe
    have : p = { actor := ctx.self, permission := N_callback } := by
      cases p; simp_all
    unfold has_callback_auth
    rwa [← this]
  rw [this]; rfl

theorem require_auth_self_of_callback (ctx : Context) (h : has_callback_auth ctx) :
    require_auth ctx ctx.self = .ok () := by
  unfold require_auth
  rw [check_ok_iff, List.any_eq_true]
  exact ⟨_, h, by simp⟩

theorem require_auth_of_has_auth (ctx : Context) (a : AccountName) (h : has_auth ctx a) :
    require_auth ctx a = .ok () := by
  unfold require_auth
  rw [check_ok_iff, List.any_eq_true]
  obtain ⟨p, hp, hpa⟩ := h
  exact ⟨p, hp, by simp [hpa]⟩

theorem locked_find_erase (l : List locked_row) (seq : Nat) :
    locked_find (locked_erase l seq) seq = none := by
  unfold locked_find locked_erase
  rw [List.find?_eq_none]
  intro r hr
  rw [List.mem_filter] at hr
  simpa using hr.2

theorem locked_find_erase_ne (l : List locked_row) (seq k : Nat) (h : k ≠ seq) :
    locked_find (locked_erase l seq) k = locked_find l k := by
  unfold locked_find locked_erase
  induction l with
  | nil => rfl
  | cons r rs ih =>
    by_cases hr : r.seq = seq
    · have hk : ¬ ((r.seq == k) = true) := by
        simp only [beq_iff_eq]; omega
      have hf : ¬ ((r.seq != seq) = true) := by simp [hr]
      rw [List.filter_cons_of_neg (p := fun r : locked_row => r.seq != seq) hf,
        List.find?_cons_of_neg (p := fun r : locked_row => r.seq == k) _ hk]
      exact ih
    · have hf : (r.seq != seq) = true := by simp [hr]
      rw [List.filter_cons_of_pos (p := fun r : locked_row => r.seq != seq) hf]
      by_cases hk : (r.seq == k) = true
      · rw [List.find?_cons_of_pos (p := fun r : locked_row => r.seq == k) _ hk,
          List.find?_cons_of_pos (p := fun r : locked_row => r.seq == k) _ hk]
      · rw [List.find?_cons_of_neg (p := fun r : locked_row => r.seq == k) _ hk,
          List.find?_cons_of_neg (p := fun r : locked_row => r.seq == k) _ hk]
        exact ih

theorem locked_erase_of_find_none (l : List locked_row) (seq : Nat)
    (h : locked_find l seq = none) : locked_erase l seq = l := by
  unfold locked_find at h
  unfold locked_erase
  rw [List.find?_eq_none] at h
  rw [List.filter_eq_self]
  intro r hr
  simpa using h r hr

theorem mem_locked_erase (l : List locked_row) (seq : Nat) (r : locked_row) :
    r ∈ locked_erase l seq ↔ r ∈ l ∧ r.seq ≠ seq := by
  unfold locked_erase
  simp [List.mem_filter]

theorem mint_ok_iff (ctx : Context) (contract to_ : AccountName) (quantity : asset)
    (s s' : State) :
    mint ctx contract to_ quantity s = .ok s' ↔
      ∃ st supply,
        require_auth ctx ctx.self = .ok () ∧
        ctx.is_account to_ = true ∧
        quantity.is_valid = true ∧
        0 < quantity.amount ∧
        stats_find s.stats contract (symbol_code quantity.symbol) = some st ∧
        quantity.symbol = st.supply.symbol ∧
        quantity.amount ≤ wrap64 (int64_max - st.supply.amount) ∧
        st.supply.add_assign quantity = .ok supply ∧
        s' = { require_recipient to_ s with
                stats := stats_set_supply (require_recipient to_ s).stats contract
                  (symbol_code quantity.symbol) supply,
                accounts := add_balance contract to_ quantity (require_recipient to_ s).accounts } := by
  unfold mint
  cases h1 : require_auth ctx ctx.self with
  | error e => simp [bind, Except.bind]
  | ok u =>
    cases h2 : ctx.is_account to_ <;> simp [bind, Except.bind, check]
    cases h3 : quantity.is_valid <;> simp
    by_cases h4 : 0 < quantity.amount <;> simp [h4]
    cases h5 : stats_find s.stats contract (symbol_code quantity.symbol) with
    | none => simp
    | some st =>
      simp
      by_cases h6 : quantity.symbol = st.supply.symbol <;> simp [h6]
      by_cases h7 : quantity.amount ≤ wrap64 (int64_max - st.supply.amount) <;> simp [h7]
      cases h8 : st.supply.add_assign quantity with
      | error e => simp
      | ok supply =>
        simp [pure, Except.pure]
        constructor
        · intro h; exact h.symm
        · intro h; exact h.symm

theorem mint_frame (ctx : Context) (contract to_ : AccountName) (quantity : asset)
    (s s' : State) (h : mint ctx contract to_ quantity s = .ok s') :
    s'.co = s.co ∧ s'.locked = s.locked ∧ s'.deposits = s.deposits ∧ s'.actions = s.actions := by
  rw [mint_ok_iff] at h
  obtain ⟨st, supply, -, -, -, -, -, -, -, -, rfl⟩ := h
  unfold require_recipient
  split <;> simp

theorem wrap64_of_in_int64 (x : Int) (h : in_int64 x) : wrap64 x = x := by
  unfold in_int64 at h
  unfold wrap64
  norm_num at h ⊢
  omega

theorem add_assign_ok_iff (a b r : asset) :
    a.add_assign b = .ok r ↔
      b.symbol = a.symbol ∧ -max_amount ≤ wrap64 (a.amount + b.amount) ∧
      wrap64 (a.amount + b.amount) ≤ max_amount ∧
      r = { amount := wrap64 (a.amount + b.amount), symbol := a.symbol } := by
  unfold asset.add_assign
  by_cases h1 : b.symbol = a.symbol <;> simp [bind, Except.bind, check, h1]
  by_cases h2 : -max_amount ≤ wrap64 (a.amount + b.amount) <;> simp [h2]
  by_cases h3 : wrap64 (a.amount + b.amount) ≤ max_amount <;> simp [h3, pure, Except.pure]
  exact eq_comm

theorem sub_assign_ok_iff (a b r : asset) :
    a.sub_assign b = .ok r ↔
      b.symbol = a.symbol ∧ -max_amount ≤ wrap64 (a.amount - b.amount) ∧
      wrap64 (a.amount - b.amount) ≤ max_amount ∧
      r = { amount := wrap64 (a.amount - b.amount), symbol := a.symbol } := by
  unfold asset.sub_assign
  by_cases h1 : b.symbol = a.symbol <;> simp [bind, Except.bind, check, h1]
  by_cases h2 : -max_amount ≤ wrap64 (a.amount - b.amount) <;> simp [h2]
  by_cases h3 : wrap64 (a.amount - b.amount) ≤ max_amount <;> simp [h3, pure, Except.pure]
  exact eq_comm

/-- The supply check of `mint` excludes wrap-around: a positive quantity that passes
it adds to an `int64_t` supply without overflow. -/
theorem mint_sum_in_int64 (supply q : Int) (hs : in_int64 supply) (hq : 0 < q)
    (hle : q ≤ wrap64 (int64_max - supply)) :
    0 ≤ supply ∧ supply + q ≤ int64_max ∧ wrap64 (supply + q) = supply + q := by
  unfold in_int64 at hs
  unfold wrap64 int64_max at *
  norm_num at hs hle ⊢
  omega

theorem icpreceipt_locked (ctx : Context) (seq status : Nat) (data : List Nat) (s s' : State)
    (h : icpreceipt ctx seq status data s = .ok s') :
    s'.locked = locked_erase s.locked seq := by
  unfold icpreceipt at h
  cases h1 : require_auth2 ctx ctx.self N_callback with
  | error e => simp [h1, bind, Except.bind] at h
  | ok u =>
    simp only [h1, bind, Except.bind] at h
    cases h2 : locked_find s.locked seq with
    | none =>
      simp only [h2, pure, Except.pure] at h
      cases h
      exact (locked_erase_of_find_none _ _ h2).symm
    | some it =>
      simp only [h2] at h
      by_cases hst : status = ctx.expired
      · cases hrf : it.refund
        · simp [hst, hrf, pure, Except.pure, send] at h
          subst h; rfl
        · simp only [hst, hrf, if_true, Bool.not_true] at h
          cases hm : mint ctx it.contract it.account it.balance s with
          | error e => simp [hm] at h
          | ok s1 =>
            simp [hm, pure, Except.pure] at h
            subst h
            simp [(mint_frame _ _ _ _ _ _ hm).2.1]
      · simp [hst, pure, Except.pure] at h
        subst h; rfl

theorem stats_find_set_supply (t : List stat_row) (c : AccountName) (code : Nat)
    (st : stat_row) (sup : asset)
    (hfind : stats_find t c code = some st) (hcode : symbol_code sup.symbol = code) :
    stats_find (stats_set_supply t c code sup) c code = some { st with supply := sup } := by
  unfold stats_find stats_set_supply at *
  rw [List.find?_map]
  have hp : ((fun r : stat_row => r.scope == c && symbol_code r.supply.symbol == code) ∘
      fun r : stat_row =>
        if (r.scope == c && symbol_code r.supply.symbol == code) = true then
          { r with supply := sup }
        else r) = fun r : stat_row => r.scope == c && symbol_code r.supply.symbol == code := by
    funext r
    simp only [Function.comp]
    split
    · rename_i h
      simp only [Bool.and_eq_true, beq_iff_eq] at h
      simp [h.1, h.2, hcode]
    · rfl
  rw [hp, hfind]
  have hm := List.find?_some hfind
  simp only [Option.map_some', hm, if_true]

theorem wrapped_balance_add_balance (t : List account_row) (c o : AccountName) (v : asset) :
    wrapped_balance (add_balance c o v t) c o (symbol_code v.symbol) =
      wrapped_balance t c o (symbol_code v.symbol) + v.amount := by
  unfold wrapped_balance add_balance
  cases hf : accounts_find t c o (symbol_code v.symbol) with
  | none =>
    have hn := hf
    unfold accounts_find at hn ⊢
    simp only [List.find?_append, hn, Option.none_or]
    simp [List.find?_cons]
  | some r =>
    have hs := hf
    unfold accounts_find at hs ⊢
    simp only
    rw [List.find?_map]
    have hp : ((fun r : account_row =>
          r.contract == c && r.owner == o &&
            symbol_code r.balance.symbol == symbol_code v.symbol) ∘
        fun r : account_row =>
          if (r.contract == c && r.owner == o &&
              symbol_code r.balance.symbol == symbol_code v.symbol) = true then
            { r with balance := { r.balance with amount := r.balance.amount + v.amount } }
          else r) =
        fun r : account_row =>
          r.contract == c && r.owner == o &&
            symbol_code r.balance.symbol == symbol_code v.symbol := by
      funext x
      simp only [Function.comp]
      split
      · rename_i h
        simp
      · rfl
    rw [hp, hs]
    have hm := List.find?_some hs
    simp only [Option.map_some', hm, if_true]

/-! ## The receipt handler -/

/-- The sample symbol `4,TOK` is a valid symbol. -/
theorem TOK_symbol_is_valid : symbol_is_valid TOK = true := by decide

/-- C1: if an escrow row with key `seq` exists and `icpreceipt(seq, status, data)`
succeeds, then afterwards the `locked` table has no row with key `seq`, and every row
with another key is as before; this holds for every status and every refund flag. -/
theorem icpreceipt_erases_escrow (ctx : Context) (seq status : Nat) (data : List Nat)
    (s s' : State) (r : locked_row)
    (hr : locked_find s.locked seq = some r)
    (hok : icpreceipt ctx seq status data s = .ok s') :
    locked_find s'.locked seq = none ∧
    (∀ x ∈ s'.locked, x.seq ≠ seq) ∧
    (∀ k, k ≠ seq → locked_find s'.locked k = locked_find s.locked k) ∧
    (∀ x : locked_row, x.seq ≠ seq → (x ∈ s'.locked ↔ x ∈ s.locked)) := by
  have hl := icpreceipt_locked ctx seq status data s s' hok
  have _ := hr
  rw [hl]
  refine ⟨locked_find_erase _ _, ?_, ?_, ?_⟩
  · intro x hx
    exact ((mem_locked_erase _ _ _).1 hx).2
  · intro k hk
    exact locked_find_erase_ne _ _ _ hk
  · intro x hx
    rw [mem_locked_erase]
    exact ⟨fun h => h.1, fun h => ⟨h, hx⟩⟩

/-- Witness of C1: the expired receipt for sequence 1 removes row 1 and keeps row 2. -/
theorem icpreceipt_erases_escrow_witness :
    locked_find example_state.locked 1 = some example_escrow ∧
    icpreceipt example_callback_ctx 1 2 [] example_state =
      .ok { example_state with
            locked := [example_escrow_other],
            actions := [transfer_action example_callback_ctx (N "eosio.token") (N "alice")
              { amount := 1000000, symbol := TOK } "icp release locked asset"] } ∧
    locked_find [example_escrow_other] 1 = none ∧
    locked_find [example_escrow_other] 2 = locked_find example_state.locked 2 :=
  have h := icpreceipt_erases_escrow example_callback_ctx 1 2 [] example_state
    { example_state with
      locked := [example_escrow_other],
      actions := [transfer_action example_callback_ctx (N "eosio.token") (N "alice")
        { amount := 1000000, symbol := TOK } "icp release locked asset"] }
    example_escrow (by decide) (by rfl)
  ⟨by decide, by rfl, h.1, h.2.2.1 2 (by decide)⟩

theorem icpreceipt_absent (ctx : Context) (seq status : Nat) (data : List Nat) (s : State)
    (hauth : has_callback_auth ctx) (hnone : locked_find s.locked seq = none) :
    icpreceipt ctx seq status data s = .ok s := by
  unfold icpreceipt
  rw [require_auth2_of_callback ctx hauth]
  simp only [bind, Except.bind, hnone]
  rfl

theorem icpreceipt_ok_auth (ctx : Context) (seq status : Nat) (data : List Nat) (s s' : State)
    (h : icpreceipt ctx seq status data s = .ok s') : has_callback_auth ctx := by
  by_contra hn
  unfold icpreceipt at h
  rw [require_auth2_without_callback ctx hn] at h
  simp [bind, Except.bind] at h

theorem icpreceipt_repeat (ctx : Context) (seq status : Nat) (data : List Nat) (s s' : State)
    (h : icpreceipt ctx seq status data s = .ok s') (status' : Nat) (data' : List Nat) :
    icpreceipt ctx seq status' data' s' = .ok s' := by
  apply icpreceipt_absent _ _ _ _ _ (icpreceipt_ok_auth _ _ _ _ _ _ h)
  rw [icpreceipt_locked _ _ _ _ _ _ h]
  exact locked_find_erase _ _

/-- C2: `icpreceipt` is idempotent.  On a state without an escrow row for `seq` the
call with the callback authorization succeeds and returns the state as it is (no table
changes, no action is sent), for every status and data; after a successful call a
further call for the same `seq` (any status, any data) succeeds and changes nothing;
and for every state, running the call twice commits the same state as running it
once. -/
theorem icpreceipt_idempotent (ctx : Context) (seq status : Nat) (data : List Nat)
    (s : State) :
    (has_callback_auth ctx → locked_find s.locked seq = none →
      icpreceipt ctx seq status data s = .ok s) ∧
    (∀ s', icpreceipt ctx seq status data s = .ok s' →
      ∀ status' data', icpreceipt ctx seq status' data' s' = .ok s') ∧
    commit (icpreceipt ctx seq status data) (commit (icpreceipt ctx seq status data) s) =
      commit (icpreceipt ctx seq status data) s := by
  refine ⟨icpreceipt_absent ctx seq status data s, ?_, ?_⟩
  · intro s' h status' data'
    exact icpreceipt_repeat ctx seq status data s s' h status' data'
  · cases h : icpreceipt ctx seq status data s with
    | error e =>
      have hc : commit (icpreceipt ctx seq status data) s = s := by
        unfold commit; rw [h]
      rw [hc, hc]
    | ok s' =>
      have hc : commit (icpreceipt ctx seq status data) s = s' := by
        unfold commit; rw [h]
      rw [hc]
      unfold commit
      rw [icpreceipt_repeat ctx seq status data s s' h status data]

/-- Witness of C2: an unknown sequence number is ignored, and a repeated receipt for
a resolved one changes nothing. -/
theorem icpreceipt_idempotent_witness :
    has_callback_auth example_callback_ctx ∧
    locked_find example_state.locked 7 = none ∧
    icpreceipt example_callback_ctx 7 2 [1, 2] example_state = .ok example_state ∧
    commit (icpreceipt example_callback_ctx 1 2 [])
        (commit (icpreceipt example_callback_ctx 1 2 []) example_state) =
      commit (icpreceipt example_callback_ctx 1 2 []) example_state :=
  ⟨by decide, by decide,
    (icpreceipt_idempotent example_callback_ctx 7 2 [1, 2] example_state).1
      (by decide) (by decide),
    (icpreceipt_idempotent example_callback_ctx 1 2 [] example_state).2.2⟩

/-- C3: compensation of a non-refund escrow.  With the callback authorization, on a
state holding the escrow row `r` under `seq` with `r.refund = false`, the call
`icpreceipt(seq, expired, data)` succeeds, sends exactly one action, the `transfer` on
`r.contract` from this contract to `r.account` of `r.balance`, removes the row, and
changes neither the supply rows nor the wrapped balances. -/
theorem icpreceipt_expired_transfer (ctx : Context) (seq : Nat) (data : List Nat)
    (s : State) (r : locked_row)
    (hauth : has_callback_auth ctx)
    (hr : locked_find s.locked seq = some r) (hrf : r.refund = false) :
    icpreceipt ctx seq ctx.expired data s =
      .ok { s with
            locked := locked_erase s.locked seq,
            actions := s.actions ++
              [{ authorization := [{ actor := ctx.self, permission := N_active }],
                 account := r.contract, name := N_transfer,
                 data := .transfer
                   { from_ := ctx.self, to_ := r.account, quantity := r.balance,
                     memo := "icp release locked asset" } }] } := by
  unfold icpreceipt
  rw [require_auth2_of_callback ctx hauth]
  simp only [bind, Except.bind, hr, hrf]
  simp [pure, Except.pure, send]

/-- Witness of C3: the expired receipt of a plain transfer of `100.0000 TOK`. -/
theorem icpreceipt_expired_transfer_witness :
    has_callback_auth example_callback_ctx ∧
    locked_find example_state.locked 1 = some example_escrow ∧
    example_escrow.refund = false ∧
    icpreceipt example_callback_ctx 1 2 [] example_state =
      .ok { example_state with
            locked := [example_escrow_other],
            actions := [transfer_action example_callback_ctx (N "eosio.token") (N "alice")
              { amount := 1000000, symbol := TOK } "icp release locked asset"] } :=
  ⟨by decide, by decide, by decide,
    icpreceipt_expired_transfer example_callback_ctx 1 [] example_state example_escrow
      (by decide) (by decide) (by decide)⟩

/-- C5: finalize changes nothing but the escrow.  With the callback authorization, on
a state holding an escrow row under `seq`, and for every status byte other than
`expired`, `icpreceipt(seq, status, data)` succeeds and returns the state with that
row removed: no action is sent, and the deposit table, the supply table and the
wrapped balances are the same. -/
theorem icpreceipt_finalize (ctx : Context) (seq status : Nat) (data : List Nat)
    (s : State) (r : locked_row)
    (hauth : has_callback_auth ctx)
    (hr : locked_find s.locked seq = some r) (hst : status ≠ ctx.expired) :
    icpreceipt ctx seq status data s = .ok { s with locked := locked_erase s.locked seq } := by
  unfold icpreceipt
  rw [require_auth2_of_callback ctx hauth]
  simp only [bind, Except.bind, hr]
  simp [pure, Except.pure, hst]

/-- Witness of C5: the receipt of a delivered transfer. -/
theorem icpreceipt_finalize_witness :
    has_callback_auth example_callback_ctx ∧
    locked_find example_state.locked 1 = some example_escrow ∧
    1 ≠ example_callback_ctx.expired ∧
    icpreceipt example_callback_ctx 1 1 [] example_state =
      .ok { example_state with locked := [example_escrow_other] } :=
  ⟨by decide, by decide, by decide,
    icpreceipt_finalize example_callback_ctx 1 1 [] example_state example_escrow
      (by decide) (by decide) (by decide)⟩

/-- C6: without the authorization `_self@callback` both `icpreceive` and `icpreceipt`
fail at their first statement, for every state and all arguments; the transaction
leaves the state (all tables, the actions sent) as it was. -/
theorem callbacks_reject_unauthorized (ctx : Context) (s : State)
    (contract icp_from to_ : AccountName) (quantity : asset) (memo : String) (refund : Nat)
    (seq status : Nat) (data : List Nat)
    (hauth : ¬ has_callback_auth ctx) :
    icpreceive ctx contract icp_from to_ quantity memo refund s = .error "missing authority" ∧
    icpreceipt ctx seq status data s = .error "missing authority" ∧
    commit (icpreceive ctx contract icp_from to_ quantity memo refund) s = s ∧
    commit (icpreceipt ctx seq status data) s = s := by
  have h1 : icpreceive ctx contract icp_from to_ quantity memo refund s =
      .error "missing authority" := by
    unfold icpreceive
    rw [require_auth2_without_callback ctx hauth]
    rfl
  have h2 : icpreceipt ctx seq status data s = .error "missing authority" := by
    unfold icpreceipt
    rw [require_auth2_without_callback ctx hauth]
    rfl
  refine ⟨h1, h2, ?_, ?_⟩
  · unfold commit; rw [h1]
  · unfold commit; rw [h2]

/-- Witness of C6: a user's own authorization does not open the callbacks. -/
theorem callbacks_reject_unauthorized_witness :
    ¬ has_callback_auth example_alice_ctx ∧
    icpreceive example_alice_ctx (N "eosio.token") (N "bob") (N "alice")
      { amount := 10, symbol := TOK } "" 0 example_state = .error "missing authority" ∧
    icpreceipt example_alice_ctx 1 2 [] example_state = .error "missing authority" :=
  have h := callbacks_reject_unauthorized example_alice_ctx example_state (N "eosio.token")
    (N "bob") (N "alice") { amount := 10, symbol := TOK } "" 0 1 2 [] (by decide)
  ⟨by decide, h.1, h.2.1⟩

/-- C4: compensation of a refund escrow.  With the callback authorization, on a state
holding the escrow row `r` under `seq` with `r.refund = true` (supply amounts being
`int64_t` values), `icpreceipt(seq, expired, data)` is `mint(r.contract, r.account,
r.balance)` followed by the removal of the row.  When it succeeds, the supply row of
the symbol of `r.balance` has grown by exactly `r.balance.amount`, the other supply
rows are the same, the owner's wrapped balance is credited with exactly
`r.balance.amount`, and no action is sent (so no native `transfer`). -/
theorem icpreceipt_expired_mint (ctx : Context) (seq : Nat) (data : List Nat)
    (s : State) (r : locked_row)
    (hauth : has_callback_auth ctx)
    (hr : locked_find s.locked seq = some r) (hrf : r.refund = true)
    (hty : ∀ st ∈ s.stats, in_int64 st.supply.amount) :
    icpreceipt ctx seq ctx.expired data s =
      (mint ctx r.contract r.account r.balance s).map
        (fun s1 => { s1 with locked := locked_erase s1.locked seq }) ∧
    ∀ s', icpreceipt ctx seq ctx.expired data s = .ok s' →
      ∃ st, stats_find s.stats r.contract (symbol_code r.balance.symbol) = some st ∧
        stats_find s'.stats r.contract (symbol_code r.balance.symbol) =
          some { st with supply :=
            { amount := st.supply.amount + r.balance.amount, symbol := st.supply.symbol } } ∧
        s'.stats = stats_set_supply s.stats r.contract (symbol_code r.balance.symbol)
          { amount := st.supply.amount + r.balance.amount, symbol := st.supply.symbol } ∧
        s'.accounts = add_balance r.contract r.account r.balance s.accounts ∧
        wrapped_balance s'.accounts r.contract r.account (symbol_code r.balance.symbol) =
          wrapped_balance s.accounts r.contract r.account (symbol_code r.balance.symbol) +
            r.balance.amount ∧
        s'.actions = s.actions ∧
        s'.locked = locked_erase s.locked seq ∧
        s'.deposits = s.deposits := by
  have heq : icpreceipt ctx seq ctx.expired data s =
      (mint ctx r.contract r.account r.balance s).map
        (fun s1 => { s1 with locked := locked_erase s1.locked seq }) := by
    unfold icpreceipt
    rw [require_auth2_of_callback ctx hauth]
    simp only [bind, Except.bind, hr, hrf]
    cases mint ctx r.contract r.account r.balance s <;>
      simp [pure, Except.pure, Except.map]
  refine ⟨heq, ?_⟩
  intro s' hok
  rw [heq] at hok
  cases hm : mint ctx r.contract r.account r.balance s with
  | error e => simp [hm, Except.map] at hok
  | ok s1 =>
    simp only [hm, Except.map, Except.ok.injEq] at hok
    subst hok
    have hfr := mint_frame _ _ _ _ _ _ hm
    rw [mint_ok_iff] at hm
    obtain ⟨st, supply, -, -, -, hpos, hfind, hsym, hle, hadd, rfl⟩ := hm
    rw [add_assign_ok_iff] at hadd
    obtain ⟨-, -, -, rfl⟩ := hadd
    have hst : in_int64 st.supply.amount := by
      apply hty
      unfold stats_find at hfind
      exact List.mem_of_find?_eq_some hfind
    have hsum := (mint_sum_in_int64 _ _ hst hpos hle).2.2
    have hnot : (require_recipient r.account s).stats = s.stats := by
      unfold require_recipient; split <;> rfl
    have hacc : (require_recipient r.account s).accounts = s.accounts := by
      unfold require_recipient; split <;> rfl
    refine ⟨st, hfind, ?_, ?_, ?_, ?_, ?_, ?_, ?_⟩
    · simp only [hnot, hsum]
      apply stats_find_set_supply _ _ _ _ _ hfind
      have hm := List.find?_some hfind
      simp only [Bool.and_eq_true, beq_iff_eq] at hm
      exact hm.2
    · simp only [hnot, hsum]
    · simp only [hacc]
    · simp only [hacc]
      exact wrapped_balance_add_balance _ _ _ _
    · exact hfr.2.2.2
    · simp only []
      rw [hfr.2.1]
    · exact hfr.2.2.1

/-- Witness of C4: the expired receipt of a refund of `0.0005 TOK` mints it back. -/
theorem icpreceipt_expired_mint_witness :
    has_callback_auth example_callback_ctx ∧
    locked_find example_state.locked 2 = some example_escrow_other ∧
    example_escrow_other.refund = true ∧
    (∀ st ∈ example_state.stats, in_int64 st.supply.amount) ∧
    icpreceipt example_callback_ctx 2 2 [] example_state =
      .ok { example_state with
            locked := [example_escrow],
            stats := [{ scope := N "eosio.token", supply := { amount := 75, symbol := TOK } }],
            accounts := [{ contract := N "eosio.token", owner := N "bob",
                           balance := { amount := 5, symbol := TOK } }],
            notified := [N "bob"] } ∧
    icpreceipt example_callback_ctx 2 example_callback_ctx.expired [] example_state =
      (mint example_callback_ctx example_escrow_other.contract example_escrow_other.account
        example_escrow_other.balance example_state).map
        (fun s1 => { s1 with locked := locked_erase s1.locked 2 }) :=
  ⟨by decide, by decide, by decide, by decide, by rfl,
    (icpreceipt_expired_mint example_callback_ctx 2 [] example_state example_escrow_other
      (by decide) (by decide) (by decide) (by decide)).1⟩

/-! ## The dispatcher -/

theorem locked_emplace_ok_iff (l l' : List locked_row) (r : locked_row) :
    locked_emplace l r = .ok l' ↔ locked_find l r.seq = none ∧ l' = l ++ [r] := by
  unfold locked_emplace
  cases locked_find l r.seq <;> simp [eq_comm]

theorem icp_transfer_ok_iff (ctx : Context) (contract from_ icp_to : AccountName)
    (quantity : asset) (memo : String) (expiration : Nat) (refund : Bool) (s s' : State) :
    icp_transfer ctx contract from_ icp_to quantity memo expiration refund s = .ok s' ↔
      (get_co s).peer ≠ 0 ∧ (get_co s).icp ≠ 0 ∧
      locked_find s.locked (ctx.next_packet_seq (get_co s).icp) = none ∧
      s' = { s with
        locked := s.locked ++
          [{ seq := ctx.next_packet_seq (get_co s).icp, contract := contract,
             account := from_, balance := quantity, refund := refund }],
        actions := s.actions ++
          [{ authorization := [{ actor := (get_co s).icp, permission := N_sendaction }],
             account := (get_co s).icp, name := N_sendaction,
             data := .sendaction
               { seq := ctx.next_packet_seq (get_co s).icp,
                 send_action :=
                   { authorization := [], account := (get_co s).peer, name := N_icpreceive,
                     data := .receive
                       { contract := contract, from_ := from_, to_ := icp_to,
                         quantity := quantity, memo := memo,
                         refund := if refund then 1 else 0 } },
                 expiration := expiration,
                 receive_action :=
                   { authorization := [], account := ctx.self, name := N_icpreceipt,
                     data := .flag false } } }] } := by
  unfold icp_transfer
  by_cases h1 : (get_co s).peer = 0
  · simp [h1, bind, Except.bind, check]
  by_cases h2 : (get_co s).icp = 0
  · simp [h1, h2, bind, Except.bind, check]
  simp only [bind, Except.bind, check, bne_iff_ne, ne_eq, h1, h2, not_false_eq_true,
    if_true, true_and]
  cases he : locked_emplace s.locked
      { seq := ctx.next_packet_seq (get_co s).icp, contract := contract,
        account := from_, balance := quantity, refund := refund } with
  | error e =>
    have hn : locked_find s.locked (ctx.next_packet_seq (get_co s).icp) ≠ none := by
      intro hnone
      have := (locked_emplace_ok_iff s.locked _
        { seq := ctx.next_packet_seq (get_co s).icp, contract := contract,
          account := from_, balance := quantity, refund := refund }).2 ⟨hnone, rfl⟩
      rw [he] at this
      cases this
    simp [hn]
  | ok l =>
    rw [locked_emplace_ok_iff] at he
    obtain ⟨hnone, rfl⟩ := he
    simp only [pure, Except.pure, send, Except.ok.injEq, hnone, true_and]
    exact eq_comm

/-- C7: effect of the dispatcher.  After a successful `icp_transfer(contract, from,
icp_to, quantity, memo, expiration, refund)` in which the channel returns the sequence
number `seq`, the `locked` table is the old one plus exactly one row, `(seq, contract,
from, quantity, refund)`, whose key was not in the table before; exactly one more
action has been sent, the channel's `sendaction` carrying `seq`, the expiration, and
the packed `icpreceive` call `(contract, from, icp_to, quantity, memo, refund)`
addressed to the peer contract; the deposit table, the supply table and the wrapped
balances are the same. -/
theorem icp_transfer_effect (ctx : Context) (contract from_ icp_to : AccountName)
    (quantity : asset) (memo : String) (expiration : Nat) (refund : Bool) (s s' : State)
    (hok : icp_transfer ctx contract from_ icp_to quantity memo expiration refund s = .ok s') :
    s'.locked = s.locked ++
      [{ seq := ctx.next_packet_seq (get_co s).icp, contract := contract,
         account := from_, balance := quantity, refund := refund }] ∧
    locked_find s.locked (ctx.next_packet_seq (get_co s).icp) = none ∧
    s'.actions = s.actions ++
      [{ authorization := [{ actor := (get_co s).icp, permission := N_sendaction }],
         account := (get_co s).icp, name := N_sendaction,
         data := .sendaction
           { seq := ctx.next_packet_seq (get_co s).icp,
             send_action :=
               { authorization := [], account := (get_co s).peer, name := N_icpreceive,
                 data := .receive
                   { contract := contract, from_ := from_, to_ := icp_to,
                     quantity := quantity, memo := memo,
                     refund := if refund then 1 else 0 } },
             expiration := expiration,
             receive_action :=
               { authorization := [], account := ctx.self, name := N_icpreceipt,
                 data := .flag false } } }] ∧
    s'.deposits = s.deposits ∧ s'.stats = s.stats ∧ s'.accounts = s.accounts ∧
    s'.co = s.co ∧ s'.notified = s.notified := by
  rw [icp_transfer_ok_iff] at hok
  obtain ⟨-, -, hnone, rfl⟩ := hok
  exact ⟨rfl, hnone, rfl, rfl, rfl, rfl, rfl, rfl⟩

/-- Witness of C7: dispatching `0.0040 TOK` from `alice` to `bob` under sequence 3. -/
theorem icp_transfer_effect_witness :
    icp_transfer example_alice_ctx (N "eosio.token") (N "alice") (N "bob")
        { amount := 40, symbol := TOK } "hello" 100 false example_state =
      .ok { example_state with
            locked := [example_escrow, example_escrow_other,
              { seq := 3, contract := N "eosio.token", account := N "alice",
                balance := { amount := 40, symbol := TOK }, refund := false }],
            actions :=
              [{ authorization := [{ actor := N "icp", permission := N_sendaction }],
                 account := N "icp", name := N_sendaction,
                 data := .sendaction
                   { seq := 3,
                     send_action :=
                       { authorization := [], account := N "peertoken", name := N_icpreceive,
                         data := .receive
                           { contract := N "eosio.token", from_ := N "alice", to_ := N "bob",
                             quantity := { amount := 40, symbol := TOK }, memo := "hello",
                             refund := 0 } },
                     expiration := 100,
                     receive_action :=
                       { authorization := [], account := N "icptoken", name := N_icpreceipt,
                         data := .flag false } } }] } ∧
    locked_find example_state.locked 3 = none :=
  ⟨by rfl,
    (icp_transfer_effect example_alice_ctx (N "eosio.token") (N "alice") (N "bob")
      { amount := 40, symbol := TOK } "hello" 100 false example_state _ (by rfl)).2.1⟩

/-! ## Bridging a deposit -/

theorem least_pk_mem (l : List deposit_row) (r : deposit_row) (h : least_pk l = some r) :
    r ∈ l := by
  induction l generalizing r with
  | nil => simp [least_pk] at h
  | cons x xs ih =>
    unfold least_pk at h
    cases hx : least_pk xs with
    | none =>
      simp only [hx, Option.some.injEq] at h
      subst h
      exact List.mem_cons_self _ _
    | some b =>
      simp only [hx] at h
      split at h
      · simp only [Option.some.injEq] at h
        subst h
        exact List.mem_cons_of_mem _ (ih _ hx)
      · simp only [Option.some.injEq] at h
        subst h
        exact List.mem_cons_self _ _

theorem deposits_find_some (t : List deposit_row) (c from_ : AccountName) (q : asset)
    (dp : deposit_row) (h : deposits_find t c (account_asset_key from_ q) = some dp) :
    dp ∈ t ∧ dp.scope = c ∧ dp.account = from_ ∧ dp.balance.symbol = q.symbol := by
  unfold deposits_find at h
  have hm := least_pk_mem _ _ h
  rw [List.mem_filter] at hm
  obtain ⟨hmem, hp⟩ := hm
  simp only [account_asset_key, Bool.and_eq_true, beq_iff_eq, Prod.mk.injEq] at hp
  exact ⟨hmem, hp.1, hp.2.1, hp.2.2⟩

theorem icptransfer_ok_iff (ctx : Context) (contract from_ icp_to : AccountName)
    (quantity : asset) (memo : String) (expiration : Nat) (s s' : State) :
    icptransfer ctx contract from_ icp_to quantity memo expiration s = .ok s' ↔
      ∃ dp dps,
        require_auth ctx from_ = .ok () ∧
        deposits_find s.deposits contract (account_asset_key from_ quantity) = some dp ∧
        quantity.amount ≤ dp.balance.amount ∧
        ((dp.balance.amount = quantity.amount ∧
            dps = deposits_erase s.deposits contract dp.pk) ∨
          (dp.balance.amount ≠ quantity.amount ∧
            ∃ b, dp.balance.sub_assign quantity = .ok b ∧
              dps = deposits_set_balance s.deposits contract dp.pk b)) ∧
        icp_transfer ctx contract from_ icp_to quantity memo expiration false
          { s with deposits := dps } = .ok s' := by
  unfold icptransfer
  cases h1 : require_auth ctx from_ with
  | error e => simp [bind, Except.bind]
  | ok u =>
    simp only [bind, Except.bind]
    cases h2 : deposits_find s.deposits contract (account_asset_key from_ quantity) with
    | none => simp
    | some dp =>
      by_cases h3 : quantity.amount ≤ dp.balance.amount
      · by_cases h4 : dp.balance.amount = quantity.amount
        · simp [check, h3, h4, pure, Except.pure]
        · cases h5 : dp.balance.sub_assign quantity with
          | error e => simp [check, h3, h4, h5]
          | ok b => simp [check, h3, h4, h5, pure, Except.pure]
      · simp [check, h3]

theorem mem_deposits_erase (t : List deposit_row) (c : AccountName) (pk : Nat)
    (x : deposit_row) :
    x ∈ deposits_erase t c pk ↔ x ∈ t ∧ ¬ (x.scope = c ∧ x.pk = pk) := by
  unfold deposits_erase
  simp only [List.mem_filter, Bool.not_eq_true', Bool.and_eq_false_iff, beq_eq_false_iff_ne,
    ne_eq]
  tauto

theorem mem_deposits_set_balance_other (t : List deposit_row) (c : AccountName) (pk : Nat)
    (b : asset) (x : deposit_row) (hx : ¬ (x.scope = c ∧ x.pk = pk)) :
    x ∈ deposits_set_balance t c pk b ↔ x ∈ t := by
  unfold deposits_set_balance
  rw [List.mem_map]
  constructor
  · rintro ⟨y, hy, hyx⟩
    by_cases hk : y.scope = c ∧ y.pk = pk
    · exfalso
      apply hx
      have h1 : (y.scope == c && y.pk == pk) = true := by simp [hk.1, hk.2]
      rw [if_pos h1] at hyx
      subst hyx
      exact hk
    · have h1 : ¬ (y.scope == c && y.pk == pk) = true := by
        simpa using hk
      rw [if_neg h1] at hyx
      subst hyx
      exact hy
  · intro h
    refine ⟨x, h, ?_⟩
    have h1 : ¬ (x.scope == c && x.pk == pk) = true := by
      simpa using hx
    rw [if_neg h1]

theorem mem_deposits_set_balance_self (t : List deposit_row) (c : AccountName) (pk : Nat)
    (b : asset) (dp : deposit_row) (hmem : dp ∈ t) (hs : dp.scope = c) (hp : dp.pk = pk) :
    { dp with balance := b } ∈ deposits_set_balance t c pk b := by
  unfold deposits_set_balance
  rw [List.mem_map]
  refine ⟨dp, hmem, ?_⟩
  have h1 : (dp.scope == c && dp.pk == pk) = true := by simp [hs, hp]
  rw [if_pos h1]

theorem deposit_total_cons (x : deposit_row) (xs : List deposit_row) (c : AccountName)
    (sym : Nat) :
    deposit_total (x :: xs) c sym =
      (if x.scope = c ∧ x.balance.symbol = sym then x.balance.amount else 0) +
        deposit_total xs c sym := by
  unfold deposit_total
  by_cases h : x.scope = c ∧ x.balance.symbol = sym
  · have hp : (x.scope == c && x.balance.symbol == sym) = true := by simp [h.1, h.2]
    rw [List.filter_cons_of_pos
      (p := fun r : deposit_row => r.scope == c && r.balance.symbol == sym) hp]
    simp [h]
  · have hp : ¬ (x.scope == c && x.balance.symbol == sym) = true := by simpa using h
    rw [List.filter_cons_of_neg
      (p := fun r : deposit_row => r.scope == c && r.balance.symbol == sym) hp]
    simp [h]

theorem deposits_erase_of_no_key (xs : List deposit_row) (c : AccountName) (pk : Nat)
    (h : ∀ x ∈ xs, ¬ (x.scope = c ∧ x.pk = pk)) : deposits_erase xs c pk = xs := by
  unfold deposits_erase
  rw [List.filter_eq_self]
  intro x hx
  have h0 : (x.scope == c && x.pk == pk) = false := by
    rw [Bool.eq_false_iff]
    simpa using h x hx
  rw [h0]
  rfl

theorem deposits_set_balance_of_no_key (xs : List deposit_row) (c : AccountName) (pk : Nat)
    (b : asset) (h : ∀ x ∈ xs, ¬ (x.scope = c ∧ x.pk = pk)) :
    deposits_set_balance xs c pk b = xs := by
  unfold deposits_set_balance
  conv_rhs => rw [← List.map_id xs]
  apply List.map_congr_left
  intro x hx
  have h1 : ¬ (x.scope == c && x.pk == pk) = true := by simpa using h x hx
  rw [if_neg h1]
  rfl

theorem keys_unique_cons (x : deposit_row) (xs : List deposit_row)
    (h : deposits_keys_unique (x :: xs)) :
    (∀ y ∈ xs, ¬ (y.scope = x.scope ∧ y.pk = x.pk)) ∧ deposits_keys_unique xs := by
  unfold deposits_keys_unique at *
  rw [List.map_cons, List.nodup_cons] at h
  refine ⟨?_, h.2⟩
  intro y hy hk
  apply h.1
  rw [List.mem_map]
  exact ⟨y, hy, by simp [hk.1, hk.2]⟩

theorem deposit_total_erase (t : List deposit_row) (c : AccountName) (sym : Nat)
    (dp : deposit_row) (hk : deposits_keys_unique t) (hmem : dp ∈ t)
    (hs : dp.scope = c) (hsym : dp.balance.symbol = sym) :
    deposit_total (deposits_erase t c dp.pk) c sym =
      deposit_total t c sym - dp.balance.amount := by
  induction t with
  | nil => cases hmem
  | cons x xs ih =>
    obtain ⟨hx, hxs⟩ := keys_unique_cons x xs hk
    rcases List.mem_cons.1 hmem with heq | hin
    · subst heq
      subst hs
      have he : deposits_erase (dp :: xs) dp.scope dp.pk = xs := by
        have h1 : ¬ (!(dp.scope == dp.scope && dp.pk == dp.pk)) = true := by simp
        unfold deposits_erase
        rw [List.filter_cons_of_neg
          (p := fun r : deposit_row => !(r.scope == dp.scope && r.pk == dp.pk)) h1]
        exact deposits_erase_of_no_key xs dp.scope dp.pk hx
      rw [he, deposit_total_cons]
      simp [hsym]
    · have hne : ¬ (x.scope = c ∧ x.pk = dp.pk) := by
        intro hxk
        exact hx dp hin ⟨by rw [hs, hxk.1], hxk.2.symm⟩
      have he : deposits_erase (x :: xs) c dp.pk = x :: deposits_erase xs c dp.pk := by
        have h1 : (!(x.scope == c && x.pk == dp.pk)) = true := by
          have h0 : (x.scope == c && x.pk == dp.pk) = false := by
            rw [Bool.eq_false_iff]
            simpa using hne
          rw [h0]
          rfl
        unfold deposits_erase
        rw [List.filter_cons_of_pos
          (p := fun r : deposit_row => !(r.scope == c && r.pk == dp.pk)) h1]
      rw [he, deposit_total_cons, deposit_total_cons, ih hxs hin]
      ring

theorem deposit_total_set_balance (t : List deposit_row) (c : AccountName) (sym : Nat)
    (dp : deposit_row) (b : asset) (hk : deposits_keys_unique t) (hmem : dp ∈ t)
    (hs : dp.scope = c) (hsym : dp.balance.symbol = sym) (hb : b.symbol = sym) :
    deposit_total (deposits_set_balance t c dp.pk b) c sym =
      deposit_total t c sym - dp.balance.amount + b.amount := by
  induction t with
  | nil => cases hmem
  | cons x xs ih =>
    obtain ⟨hx, hxs⟩ := keys_unique_cons x xs hk
    rcases List.mem_cons.1 hmem with heq | hin
    · subst heq
      subst hs
      have he : deposits_set_balance (dp :: xs) dp.scope dp.pk b =
          { dp with balance := b } :: xs := by
        have h0 := deposits_set_balance_of_no_key xs dp.scope dp.pk b hx
        unfold deposits_set_balance at h0 ⊢
        rw [List.map_cons, h0]
        simp
      rw [he, deposit_total_cons, deposit_total_cons]
      simp only [hsym, hb, and_self, if_true]
      ring
    · have hne : ¬ (x.scope = c ∧ x.pk = dp.pk) := by
        intro hxk
        exact hx dp hin ⟨by rw [hs, hxk.1], hxk.2.symm⟩
      have he : deposits_set_balance (x :: xs) c dp.pk b =
          x :: deposits_set_balance xs c dp.pk b := by
        have h1 : ¬ (x.scope == c && x.pk == dp.pk) = true := by simpa using hne
        unfold deposits_set_balance
        rw [List.map_cons, if_neg h1]
      rw [he, deposit_total_cons, deposit_total_cons, ih hxs hin]
      ring

theorem escrow_total_append (l : List locked_row) (r : locked_row) (c : AccountName)
    (sym : Nat) :
    escrow_total (l ++ [r]) c sym =
      escrow_total l c sym +
        (if r.refund = false ∧ r.contract = c ∧ r.balance.symbol = sym then r.balance.amount
          else 0) := by
  unfold escrow_total
  rw [List.filter_append, List.map_append, List.sum_append]
  congr 1
  by_cases h : r.refund = false ∧ r.contract = c ∧ r.balance.symbol = sym
  · simp [List.filter_cons, h.1, h.2.1, h.2.2]
  · rw [if_neg h]
    have hp : ¬ (!r.refund && r.contract == c && r.balance.symbol == sym) = true := by
      simpa [and_assoc] using h
    rw [List.filter_cons_of_neg
      (p := fun r : locked_row => !r.refund && r.contract == c && r.balance.symbol == sym) hp]
    simp

theorem icptransfer_deposits_wrapped (ctx : Context) (contract from_ icp_to : AccountName)
    (quantity : asset) (memo : String) (expiration : Nat) (s s' : State) (dp : deposit_row)
    (hfind : deposits_find s.deposits contract (account_asset_key from_ quantity) = some dp)
    (hok : icptransfer ctx contract from_ icp_to quantity memo expiration s = .ok s') :
    s'.deposits =
      (if dp.balance.amount = quantity.amount then deposits_erase s.deposits contract dp.pk
       else deposits_set_balance s.deposits contract dp.pk
        { amount := wrap64 (dp.balance.amount - quantity.amount),
          symbol := dp.balance.symbol }) := by
  rw [icptransfer_ok_iff] at hok
  obtain ⟨dp', dps, -, hfind', -, hcase, htr⟩ := hok
  rw [hfind] at hfind'
  cases hfind'
  have hd := (icp_transfer_ok_iff _ _ _ _ _ _ _ _ _ _).1 htr
  obtain ⟨-, -, -, rfl⟩ := hd
  rcases hcase with ⟨heq, rfl⟩ | ⟨hne, b, hb, rfl⟩
  · simp [heq]
  · rw [sub_assign_ok_iff] at hb
    obtain ⟨-, -, -, rfl⟩ := hb
    simp [hne]

theorem icptransfer_deposits (ctx : Context) (contract from_ icp_to : AccountName)
    (quantity : asset) (memo : String) (expiration : Nat) (s s' : State) (dp : deposit_row)
    (hfind : deposits_find s.deposits contract (account_asset_key from_ quantity) = some dp)
    (hno : in_int64 (dp.balance.amount - quantity.amount))
    (hok : icptransfer ctx contract from_ icp_to quantity memo expiration s = .ok s') :
    s'.deposits =
      (if dp.balance.amount = quantity.amount then deposits_erase s.deposits contract dp.pk
       else deposits_set_balance s.deposits contract dp.pk
        { amount := dp.balance.amount - quantity.amount, symbol := dp.balance.symbol }) := by
  have h := icptransfer_deposits_wrapped ctx contract from_ icp_to quantity memo expiration
    s s' dp hfind hok
  rw [wrap64_of_in_int64 _ hno] at h
  exact h

/-- C8: effect of `icptransfer`.  Let `dp` be the deposit row of `from` for the symbol
of `quantity` in the scope of `contract`.  A successful `icptransfer(contract, from,
icp_to, quantity, memo, expiration)` removes that row when the amounts are equal, and
otherwise replaces its balance by the `int64_t` difference `dp.balance - quantity`,
which is the exact difference whenever the subtraction does not overflow; every
deposit row with another key is as before; and the `locked` table gains exactly one
row, `(seq, contract, from, quantity, refund = false)`, under the sequence number
returned by the channel, which was not a key before. -/
theorem icptransfer_effect (ctx : Context) (contract from_ icp_to : AccountName)
    (quantity : asset) (memo : String) (expiration : Nat) (s s' : State) (dp : deposit_row)
    (hfind : deposits_find s.deposits contract (account_asset_key from_ quantity) = some dp)
    (hok : icptransfer ctx contract from_ icp_to quantity memo expiration s = .ok s') :
    (dp.balance.amount = quantity.amount →
      s'.deposits = deposits_erase s.deposits contract dp.pk ∧
      ∀ x ∈ s'.deposits, ¬ (x.scope = contract ∧ x.pk = dp.pk)) ∧
    (dp.balance.amount ≠ quantity.amount →
      s'.deposits = deposits_set_balance s.deposits contract dp.pk
        { amount := wrap64 (dp.balance.amount - quantity.amount),
          symbol := dp.balance.symbol } ∧
      { dp with balance :=
          { amount := wrap64 (dp.balance.amount - quantity.amount),
            symbol := dp.balance.symbol } } ∈ s'.deposits ∧
      (in_int64 (dp.balance.amount - quantity.amount) →
        s'.deposits = deposits_set_balance s.deposits contract dp.pk
          { amount := dp.balance.amount - quantity.amount, symbol := dp.balance.symbol } ∧
        { dp with balance :=
            { amount := dp.balance.amount - quantity.amount,
              symbol := dp.balance.symbol } } ∈ s'.deposits)) ∧
    (∀ x : deposit_row, ¬ (x.scope = contract ∧ x.pk = dp.pk) →
      (x ∈ s'.deposits ↔ x ∈ s.deposits)) ∧
    s'.locked = s.locked ++
      [{ seq := ctx.next_packet_seq (get_co s).icp, contract := contract,
         account := from_, balance := quantity, refund := false }] ∧
    locked_find s.locked (ctx.next_packet_seq (get_co s).icp) = none := by
  have hdep := icptransfer_deposits_wrapped ctx contract from_ icp_to quantity memo
    expiration s s' dp hfind hok
  obtain ⟨hmem, hscope, -, -⟩ := deposits_find_some _ _ _ _ _ hfind
  refine ⟨?_, ?_, ?_, ?_⟩
  · intro heq
    rw [if_pos heq] at hdep
    refine ⟨hdep, ?_⟩
    intro x hx
    rw [hdep, mem_deposits_erase] at hx
    exact hx.2
  · intro hne
    rw [if_neg hne] at hdep
    have hself : ∀ b : asset, s'.deposits = deposits_set_balance s.deposits contract dp.pk b →
        { dp with balance := b } ∈ s'.deposits := by
      intro b hb
      rw [hb]
      exact mem_deposits_set_balance_self _ _ _ _ _ hmem hscope rfl
    refine ⟨hdep, hself _ hdep, ?_⟩
    intro hno
    have hexact := hdep
    rw [wrap64_of_in_int64 _ hno] at hexact
    exact ⟨hexact, hself _ hexact⟩
  · intro x hx
    rw [hdep]
    split
    · rw [mem_deposits_erase]
      exact ⟨fun h => h.1, fun h => ⟨h, hx⟩⟩
    · exact mem_deposits_set_balance_other _ _ _ _ _ hx
  · rw [icptransfer_ok_iff] at hok
    obtain ⟨dp', dps, -, -, -, -, htr⟩ := hok
    have hd := (icp_transfer_ok_iff _ _ _ _ _ _ _ _ _ _).1 htr
    obtain ⟨-, -, hnone, rfl⟩ := hd
    exact ⟨rfl, hnone⟩

/-- Witness of C8: bridging `40.0000 TOK` of a deposit of `100.0000 TOK` leaves
`60.0000 TOK` in the deposit row and creates the escrow row of sequence 3. -/
theorem icptransfer_effect_witness :
    deposits_find example_state.deposits (N "eosio.token")
        (account_asset_key (N "alice") { amount := 400000, symbol := TOK }) =
      some example_deposit ∧
    icptransfer example_alice_ctx (N "eosio.token") (N "alice") (N "bob")
        { amount := 400000, symbol := TOK } "" 100 example_state =
      .ok example_after_icptransfer ∧
    example_deposit.balance.amount ≠ 400000 ∧
    in_int64 (example_deposit.balance.amount - 400000) ∧
    example_after_icptransfer.deposits =
      deposits_set_balance example_state.deposits (N "eosio.token") 0
        { amount := 1000000 - 400000, symbol := TOK } ∧
    example_after_icptransfer.locked = example_state.locked ++
      [{ seq := 3, contract := N "eosio.token", account := N "alice",
         balance := { amount := 400000, symbol := TOK }, refund := false }] :=
  have h := icptransfer_effect example_alice_ctx (N "eosio.token") (N "alice") (N "bob")
    { amount := 400000, symbol := TOK } "" 100 example_state example_after_icptransfer
    example_deposit (by decide) (by rfl)
  ⟨by decide, by rfl, by decide, by decide, ((h.2.1 (by decide)).2.2 (by decide)).1,
    h.2.2.2.1⟩

/-- C9: failure cases of `icptransfer`.  Invoked with the authority of `from`, the
call fails with "no deposit object found" when `from` has no deposit row for the
asset of `quantity` in the scope of `contract`, and with "overdrawn balance" when that
row holds less than `quantity.amount`; in both cases the transaction leaves the state
(the deposit table, the escrow table, the actions sent) as it was. -/
theorem icptransfer_failures (ctx : Context) (contract from_ icp_to : AccountName)
    (quantity : asset) (memo : String) (expiration : Nat) (s : State)
    (hauth : has_auth ctx from_) :
    (deposits_find s.deposits contract (account_asset_key from_ quantity) = none →
      icptransfer ctx contract from_ icp_to quantity memo expiration s =
        .error "no deposit object found" ∧
      commit (icptransfer ctx contract from_ icp_to quantity memo expiration) s = s) ∧
    (∀ dp, deposits_find s.deposits contract (account_asset_key from_ quantity) = some dp →
      dp.balance.amount < quantity.amount →
      icptransfer ctx contract from_ icp_to quantity memo expiration s =
        .error "overdrawn balance" ∧
      commit (icptransfer ctx contract from_ icp_to quantity memo expiration) s = s) := by
  constructor
  · intro hnone
    have h : icptransfer ctx contract from_ icp_to quantity memo expiration s =
        .error "no deposit object found" := by
      unfold icptransfer
      rw [require_auth_of_has_auth ctx from_ hauth]
      simp only [bind, Except.bind, hnone]
    refine ⟨h, ?_⟩
    unfold commit; rw [h]
  · intro dp hfind hlt
    have h : icptransfer ctx contract from_ icp_to quantity memo expiration s =
        .error "overdrawn balance" := by
      unfold icptransfer
      rw [require_auth_of_has_auth ctx from_ hauth]
      simp only [bind, Except.bind, hfind]
      have hb : decide (dp.balance.amount ≥ quantity.amount) = false := by
        rw [decide_eq_false_iff_not]
        omega
      rw [hb]
      rfl
    refine ⟨h, ?_⟩
    unfold commit; rw [h]

/-- Witness of C9: `bob` has no deposit, and `alice` cannot bridge more than the
`100.0000 TOK` deposited. -/
theorem icptransfer_failures_witness :
    has_auth example_alice_ctx (N "alice") ∧
    deposits_find example_state.deposits (N "eosio.token")
        (account_asset_key (N "alice") { amount := 1000001, symbol := TOK }) =
      some example_deposit ∧
    example_deposit.balance.amount < 1000001 ∧
    icptransfer example_alice_ctx (N "eosio.token") (N "alice") (N "bob")
        { amount := 1000001, symbol := TOK } "" 100 example_state =
      .error "overdrawn balance" ∧
    deposits_find example_state.deposits (N "peertoken")
        (account_asset_key (N "alice") { amount := 1, symbol := TOK }) = none ∧
    icptransfer example_alice_ctx (N "peertoken") (N "alice") (N "bob")
        { amount := 1, symbol := TOK } "" 100 example_state =
      .error "no deposit object found" :=
  ⟨by decide, by decide, by decide,
    ((icptransfer_failures example_alice_ctx (N "eosio.token") (N "alice") (N "bob")
      { amount := 1000001, symbol := TOK } "" 100 example_state (by decide)).2
      example_deposit (by decide) (by decide)).1,
    by decide,
    ((icptransfer_failures example_alice_ctx (N "peertoken") (N "alice") (N "bob")
      { amount := 1, symbol := TOK } "" 100 example_state (by decide)).1 (by decide)).1⟩

/-- Conservation across `icptransfer` in the absence of overflow.  On a deposits table
with unique primary keys, and when the subtraction `dp.balance - quantity` on the
consumed deposit row does not overflow `int64_t`, every successful `icptransfer(contract, from, icp_to,
quantity, ...)` lowers the sum of the deposit balances of the symbol of `quantity` in
the scope of `contract` by exactly `quantity.amount` and raises the sum of the
non-refund escrow rows of that contract and symbol by exactly `quantity.amount`, so
their total is the same before and after; the only action sent is the channel's
`sendaction`, no token `transfer`. -/
theorem icptransfer_conserves (ctx : Context) (contract from_ icp_to : AccountName)
    (quantity : asset) (memo : String) (expiration : Nat) (s s' : State) (dp : deposit_row)
    (hkeys : deposits_keys_unique s.deposits)
    (hfind : deposits_find s.deposits contract (account_asset_key from_ quantity) = some dp)
    (hno : in_int64 (dp.balance.amount - quantity.amount))
    (hok : icptransfer ctx contract from_ icp_to quantity memo expiration s = .ok s') :
    deposit_total s'.deposits contract quantity.symbol =
      deposit_total s.deposits contract quantity.symbol - quantity.amount ∧
    escrow_total s'.locked contract quantity.symbol =
      escrow_total s.locked contract quantity.symbol + quantity.amount ∧
    deposit_total s'.deposits contract quantity.symbol +
        escrow_total s'.locked contract quantity.symbol =
      deposit_total s.deposits contract quantity.symbol +
        escrow_total s.locked contract quantity.symbol ∧
    (∀ a ∈ s'.actions, a.name = N_transfer → a ∈ s.actions) := by
  have hdep := icptransfer_deposits ctx contract from_ icp_to quantity memo expiration s s' dp
    hfind hno hok
  obtain ⟨hmem, hscope, -, hsym⟩ := deposits_find_some _ _ _ _ _ hfind
  rw [icptransfer_ok_iff] at hok
  obtain ⟨dp', dps, -, -, -, -, htr⟩ := hok
  have hd := (icp_transfer_ok_iff _ _ _ _ _ _ _ _ _ _).1 htr
  obtain ⟨-, -, -, hs'⟩ := hd
  have hlocked : s'.locked = s.locked ++
      [{ seq := ctx.next_packet_seq (get_co s).icp, contract := contract,
         account := from_, balance := quantity, refund := false }] := by
    rw [hs']; rfl
  have h1 : deposit_total s'.deposits contract quantity.symbol =
      deposit_total s.deposits contract quantity.symbol - quantity.amount := by
    rw [hdep]
    split
    · rename_i heq
      rw [deposit_total_erase _ _ _ dp hkeys hmem hscope hsym, heq]
    · rw [deposit_total_set_balance _ _ _ dp
        { amount := dp.balance.amount - quantity.amount, symbol := dp.balance.symbol }
        hkeys hmem hscope hsym hsym]
      ring
  have h2 : escrow_total s'.locked contract quantity.symbol =
      escrow_total s.locked contract quantity.symbol + quantity.amount := by
    rw [hlocked, escrow_total_append]
    simp
  refine ⟨h1, h2, ?_, ?_⟩
  · rw [h1, h2]; ring
  · intro a ha hname
    rw [hs'] at ha
    simp only [get_co, List.mem_append, List.mem_singleton] at ha
    rcases ha with ha | ha
    · exact ha
    · exfalso
      rw [ha] at hname
      exact N_sendaction_ne_transfer hname

/-- Example of conservation: bridging `40.0000 TOK` moves them from the deposit side to
the escrow side. -/
theorem icptransfer_conserves_witness :
    deposits_keys_unique example_state.deposits ∧
    deposits_find example_state.deposits (N "eosio.token")
        (account_asset_key (N "alice") { amount := 400000, symbol := TOK }) =
      some example_deposit ∧
    in_int64 (example_deposit.balance.amount - 400000) ∧
    icptransfer example_alice_ctx (N "eosio.token") (N "alice") (N "bob")
        { amount := 400000, symbol := TOK } "" 100 example_state =
      .ok example_after_icptransfer ∧
    deposit_total example_after_icptransfer.deposits (N "eosio.token") TOK =
      deposit_total example_state.deposits (N "eosio.token") TOK - 400000 ∧
    escrow_total example_after_icptransfer.locked (N "eosio.token") TOK =
      escrow_total example_state.locked (N "eosio.token") TOK + 400000 :=
  have h := icptransfer_conserves example_alice_ctx (N "eosio.token") (N "alice") (N "bob")
    { amount := 400000, symbol := TOK } "" 100 example_state example_after_icptransfer
    example_deposit (by decide) (by decide) (by decide) (by rfl)
  ⟨by decide, by decide, by decide, by rfl, h.1, h.2.1⟩

/-- Outside the `int64_t` range the subtraction of `asset::operator-=` wraps around:
on a deposit of `2^63 - 1` and the quantity `-2^63` every check of `icptransfer`
passes, the deposit row is left with the amount `-1` and the escrow row holds
`-2^63`. -/
theorem icptransfer_wraps_outside_int64 :
    (icptransfer example_alice_ctx (N "eosio.token") (N "alice") (N "bob")
        { amount := -2 ^ 63, symbol := TOK } "" 100
        { example_state with
          deposits := [{ scope := N "eosio.token", pk := 0, account := N "alice",
                         balance := { amount := 2 ^ 63 - 1, symbol := TOK } }] }).toOption.map
      (fun s => (s.deposits.map fun r => r.balance.amount,
        s.locked.map fun r => r.balance.amount)) =
      some ([-1], [1000000, 5, -2 ^ 63]) := by
  decide

/-! ## Burning and the refund entry point -/

theorem require_recipient_frame (a : AccountName) (s : State) :
    (require_recipient a s).co = s.co ∧ (require_recipient a s).locked = s.locked ∧
    (require_recipient a s).deposits = s.deposits ∧ (require_recipient a s).stats = s.stats ∧
    (require_recipient a s).accounts = s.accounts ∧
    (require_recipient a s).actions = s.actions := by
  unfold require_recipient
  split <;> simp

theorem burn_ok_iff (ctx : Context) (contract from_ : AccountName) (quantity : asset)
    (s s' : State) :
    burn ctx contract from_ quantity s = .ok s' ↔
      ∃ st supply accounts,
        ctx.is_account from_ = true ∧
        quantity.is_valid = true ∧
        0 < quantity.amount ∧
        stats_find s.stats contract (symbol_code quantity.symbol) = some st ∧
        quantity.symbol = st.supply.symbol ∧
        quantity.amount ≤ st.supply.amount ∧
        st.supply.sub_assign quantity = .ok supply ∧
        sub_balance contract from_ quantity s.accounts = .ok accounts ∧
        s' = { require_recipient from_ s with
                stats := stats_set_supply s.stats contract (symbol_code quantity.symbol) supply,
                accounts := accounts } := by
  unfold burn
  obtain ⟨-, -, -, hst, hacc, -⟩ := require_recipient_frame from_ s
  cases h2 : ctx.is_account from_ <;> simp [bind, Except.bind, check]
  cases h3 : quantity.is_valid <;> simp
  by_cases h4 : 0 < quantity.amount <;> simp [h4]
  cases h5 : stats_find s.stats contract (symbol_code quantity.symbol) with
  | none => simp
  | some st =>
    simp
    by_cases h6 : quantity.symbol = st.supply.symbol <;> simp [h6]
    by_cases h7 : quantity.amount ≤ st.supply.amount <;> simp [h7]
    cases h8 : st.supply.sub_assign quantity with
    | error e => simp
    | ok supply =>
      simp only [hst, hacc]
      cases h9 : sub_balance contract from_ quantity s.accounts with
      | error e => simp
      | ok accounts =>
        simp [pure, Except.pure]
        exact eq_comm

theorem burn_frame (ctx : Context) (contract from_ : AccountName) (quantity : asset)
    (s s' : State) (h : burn ctx contract from_ quantity s = .ok s') :
    s'.co = s.co ∧ s'.locked = s.locked ∧ s'.deposits = s.deposits ∧ s'.actions = s.actions := by
  rw [burn_ok_iff] at h
  obtain ⟨st, supply, accounts, -, -, -, -, -, -, -, -, rfl⟩ := h
  obtain ⟨h1, h2, h3, -, -, h6⟩ := require_recipient_frame from_ s
  exact ⟨h1, h2, h3, h6⟩

/-- The supply check of `burn` excludes wrap-around: a positive quantity that passes
it is subtracted from an `int64_t` supply without overflow. -/
theorem burn_difference_in_int64 (supply q : Int) (hs : in_int64 supply) (hq : 0 < q)
    (hle : q ≤ supply) : 0 ≤ supply - q ∧ wrap64 (supply - q) = supply - q := by
  unfold in_int64 at hs
  unfold wrap64
  norm_num at hs ⊢
  omega

theorem icprefund_ok_iff (ctx : Context) (contract from_ icp_to : AccountName)
    (quantity : asset) (memo : String) (expiration : Nat) (s s' : State) :
    icprefund ctx contract from_ icp_to quantity memo expiration s = .ok s' ↔
      require_auth ctx from_ = .ok () ∧ memo.utf8ByteSize ≤ 256 ∧
      ∃ s1, burn ctx contract from_ quantity s = .ok s1 ∧
        icp_transfer ctx contract from_ icp_to quantity memo expiration true s1 = .ok s' := by
  unfold icprefund
  cases h1 : require_auth ctx from_ with
  | error e => simp [bind, Except.bind]
  | ok u =>
    by_cases h2 : memo.utf8ByteSize ≤ 256
    · cases h3 : burn ctx contract from_ quantity s with
      | error e => simp [bind, Except.bind, check, h2]
      | ok s1 => simp [bind, Except.bind, check, h2]
    · simp [bind, Except.bind, check, h2]

theorem wrapped_balance_sub_balance (t t' : List account_row) (c o : AccountName) (v : asset)
    (h : sub_balance c o v t = .ok t') :
    wrapped_balance t' c o (symbol_code v.symbol) =
      wrapped_balance t c o (symbol_code v.symbol) - v.amount := by
  unfold sub_balance at h
  unfold wrapped_balance
  cases hf : accounts_find t c o (symbol_code v.symbol) with
  | none => simp [hf] at h
  | some r =>
    simp only [hf] at h
    split at h
    · cases h
    · simp only [Except.ok.injEq] at h
      subst h
      have hs := hf
      unfold accounts_find at hs ⊢
      rw [List.find?_map]
      have hp : ((fun r : account_row =>
            r.contract == c && r.owner == o &&
              symbol_code r.balance.symbol == symbol_code v.symbol) ∘
          fun x : account_row =>
            if (x.contract == c && x.owner == o &&
                symbol_code x.balance.symbol == symbol_code v.symbol) = true then
              { x with balance := { x.balance with amount := x.balance.amount - v.amount } }
            else x) =
          fun r : account_row =>
            r.contract == c && r.owner == o &&
              symbol_code r.balance.symbol == symbol_code v.symbol := by
        funext x
        simp only [Function.comp]
        split
        · rename_i h
          simp
        · rfl
      rw [hp, hs]
      have hm := List.find?_some hs
      simp only [Option.map_some', hm, if_true]

theorem burn_ignores_deposits (ctx : Context) (contract from_ : AccountName)
    (quantity : asset) (s : State) (d : List deposit_row) :
    burn ctx contract from_ quantity { s with deposits := d } =
      (burn ctx contract from_ quantity s).map fun s1 => { s1 with deposits := d } := by
  unfold burn
  cases h2 : ctx.is_account from_ <;> simp [bind, Except.bind, check, Except.map]
  cases h3 : quantity.is_valid <;> simp
  by_cases h4 : 0 < quantity.amount <;> simp [h4]
  cases h5 : stats_find s.stats contract (symbol_code quantity.symbol) with
  | none => simp
  | some st =>
    simp
    by_cases h6 : quantity.symbol = st.supply.symbol <;> simp [h6]
    by_cases h7 : quantity.amount ≤ st.supply.amount <;> simp [h7]
    cases h8 : st.supply.sub_assign quantity with
    | error e => simp
    | ok supply =>
      have hst := (require_recipient_frame from_ s).2.2.2.1
      have hacc := (require_recipient_frame from_ s).2.2.2.2.1
      have hst' := (require_recipient_frame from_ { s with deposits := d }).2.2.2.1
      have hacc' := (require_recipient_frame from_ { s with deposits := d }).2.2.2.2.1
      simp only [hst, hacc, hst', hacc']
      cases h9 : sub_balance contract from_ quantity s.accounts with
      | error e => simp
      | ok accounts =>
        simp [pure, Except.pure]
        unfold require_recipient
        split <;> simp

theorem icp_transfer_ignores_deposits (ctx : Context) (contract from_ icp_to : AccountName)
    (quantity : asset) (memo : String) (expiration : Nat) (refund : Bool) (s : State)
    (d : List deposit_row) :
    icp_transfer ctx contract from_ icp_to quantity memo expiration refund
        { s with deposits := d } =
      (icp_transfer ctx contract from_ icp_to quantity memo expiration refund s).map
        fun s1 => { s1 with deposits := d } := by
  unfold icp_transfer
  have hco : get_co { s with deposits := d } = get_co s := rfl
  simp only [hco]
  by_cases h1 : (get_co s).peer = 0
  · simp [h1, bind, Except.bind, check, Except.map]
  by_cases h2 : (get_co s).icp = 0
  · simp [h1, h2, bind, Except.bind, check, Except.map]
  simp only [bind, Except.bind, check, bne_iff_ne, ne_eq, h1, h2, not_false_eq_true,
    if_true]
  cases he : locked_emplace s.locked
      { seq := ctx.next_packet_seq (get_co s).icp, contract := contract,
        account := from_, balance := quantity, refund := refund } with
  | error e => simp [Except.map]
  | ok l => simp [Except.map, pure, Except.pure, send]

/-- C11: effect of `icprefund`.  A successful `icprefund(contract, from, icp_to,
quantity, memo, expiration)` (supply amounts being `int64_t` values) lowers the supply
row of the symbol of `quantity` in the scope of `contract` by exactly
`quantity.amount`, debits the wrapped balance of `from` by `quantity`, leaves the
deposit table as it is, and adds exactly one escrow row, `(seq, contract, from,
quantity, refund = true)`.  The deposit table is not consulted: the outcome does not
depend on it.  A memo longer than 256 bytes makes the call fail. -/
theorem icprefund_effect (ctx : Context) (contract from_ icp_to : AccountName)
    (quantity : asset) (memo : String) (expiration : Nat) (s : State)
    (hty : ∀ st ∈ s.stats, in_int64 st.supply.amount) :
    (∀ s', icprefund ctx contract from_ icp_to quantity memo expiration s = .ok s' →
      ∃ st, stats_find s.stats contract (symbol_code quantity.symbol) = some st ∧
        stats_find s'.stats contract (symbol_code quantity.symbol) =
          some { st with supply :=
            { amount := st.supply.amount - quantity.amount, symbol := st.supply.symbol } } ∧
        s'.stats = stats_set_supply s.stats contract (symbol_code quantity.symbol)
          { amount := st.supply.amount - quantity.amount, symbol := st.supply.symbol } ∧
        sub_balance contract from_ quantity s.accounts = .ok s'.accounts ∧
        wrapped_balance s'.accounts contract from_ (symbol_code quantity.symbol) =
          wrapped_balance s.accounts contract from_ (symbol_code quantity.symbol) -
            quantity.amount ∧
        s'.deposits = s.deposits ∧
        s'.locked = s.locked ++
          [{ seq := ctx.next_packet_seq (get_co s).icp, contract := contract,
             account := from_, balance := quantity, refund := true }]) ∧
    (∀ d, icprefund ctx contract from_ icp_to quantity memo expiration
        { s with deposits := d } =
      (icprefund ctx contract from_ icp_to quantity memo expiration s).map
        fun s1 => { s1 with deposits := d }) ∧
    (memo.utf8ByteSize > 256 →
      ∃ e, icprefund ctx contract from_ icp_to quantity memo expiration s = .error e) := by
  refine ⟨?_, ?_, ?_⟩
  · intro s' hok
    rw [icprefund_ok_iff] at hok
    obtain ⟨-, -, s1, hburn, htr⟩ := hok
    have hfr := burn_frame _ _ _ _ _ _ hburn
    rw [burn_ok_iff] at hburn
    obtain ⟨st, supply, accounts, -, -, hpos, hfind, -, hle, hsub, hbal, hs1⟩ := hburn
    rw [sub_assign_ok_iff] at hsub
    obtain ⟨-, -, -, hsupply⟩ := hsub
    have hst : in_int64 st.supply.amount := by
      apply hty
      unfold stats_find at hfind
      exact List.mem_of_find?_eq_some hfind
    rw [(burn_difference_in_int64 _ _ hst hpos hle).2] at hsupply
    have htr' := (icp_transfer_ok_iff _ _ _ _ _ _ _ _ _ _).1 htr
    obtain ⟨-, -, -, hs'⟩ := htr'
    have hco : get_co s1 = get_co s := by
      unfold get_co; rw [hfr.1]
    have hstats : s'.stats = stats_set_supply s.stats contract (symbol_code quantity.symbol)
        { amount := st.supply.amount - quantity.amount, symbol := st.supply.symbol } := by
      rw [hs', hs1, hsupply]
    have hacc : s'.accounts = accounts := by
      rw [hs', hs1]
    refine ⟨st, hfind, ?_, hstats, ?_, ?_, ?_, ?_⟩
    · rw [hstats]
      apply stats_find_set_supply _ _ _ _ _ hfind
      have hm := List.find?_some hfind
      simp only [Bool.and_eq_true, beq_iff_eq] at hm
      exact hm.2
    · rw [hacc]; exact hbal
    · rw [hacc]; exact wrapped_balance_sub_balance _ _ _ _ _ hbal
    · rw [hs']; exact hfr.2.2.1
    · rw [hs']
      simp only [hco, hfr.2.1]
  · intro d
    unfold icprefund
    cases h1 : require_auth ctx from_ with
    | error e => simp [bind, Except.bind, Except.map]
    | ok u =>
      by_cases h2 : memo.utf8ByteSize ≤ 256
      · simp only [bind, Except.bind, check, h2, decide_True, if_true]
        rw [burn_ignores_deposits]
        cases h3 : burn ctx contract from_ quantity s with
        | error e => simp [Except.map]
        | ok s1 =>
          simp only [Except.map]
          exact icp_transfer_ignores_deposits _ _ _ _ _ _ _ _ _ _
      · simp [bind, Except.bind, check, h2, Except.map]
  · intro hlong
    unfold icprefund
    cases h1 : require_auth ctx from_ with
    | error e => exact ⟨e, by simp [bind, Except.bind]⟩
    | ok u =>
      have h2 : ¬ memo.utf8ByteSize ≤ 256 := by omega
      exact ⟨"memo has more than 256 bytes", by simp [bind, Except.bind, check, h2]⟩

set_option maxRecDepth 8000 in
/-- Witness of C11: refunding `0.0030 TOK` burns them and escrows them under sequence
3; a memo of 257 bytes is rejected. -/
theorem icprefund_effect_witness :
    (∀ st ∈ example_wrapped_state.stats, in_int64 st.supply.amount) ∧
    icprefund example_alice_ctx (N "eosio.token") (N "alice") (N "bob")
        { amount := 30, symbol := TOK } "" 9 example_wrapped_state =
      .ok example_after_icprefund ∧
    wrapped_balance example_after_icprefund.accounts (N "eosio.token") (N "alice")
        (symbol_code TOK) =
      wrapped_balance example_wrapped_state.accounts (N "eosio.token") (N "alice")
        (symbol_code TOK) - 30 ∧
    example_after_icprefund.locked = example_wrapped_state.locked ++
      [{ seq := 3, contract := N "eosio.token", account := N "alice",
         balance := { amount := 30, symbol := TOK }, refund := true }] ∧
    example_long_memo.utf8ByteSize > 256 ∧
    (∃ e, icprefund example_alice_ctx (N "eosio.token") (N "alice") (N "bob")
        { amount := 30, symbol := TOK } example_long_memo 9 example_wrapped_state =
      .error e) :=
  have h := icprefund_effect example_alice_ctx (N "eosio.token") (N "alice") (N "bob")
    { amount := 30, symbol := TOK } "" 9 example_wrapped_state (by decide)
  have h2 := icprefund_effect example_alice_ctx (N "eosio.token") (N "alice") (N "bob")
    { amount := 30, symbol := TOK } example_long_memo 9 example_wrapped_state (by decide)
  ⟨by decide, by rfl,
    (h.1 example_after_icprefund (by rfl)).elim fun _ hst => hst.2.2.2.2.1,
    (h.1 example_after_icprefund (by rfl)).elim fun _ hst => hst.2.2.2.2.2.2,
    by decide, h2.2.2 (by decide)⟩

/-! ## The receive handler -/

theorem mint_ignores_locked (ctx : Context) (contract to_ : AccountName) (quantity : asset)
    (s : State) (l : List locked_row) :
    mint ctx contract to_ quantity { s with locked := l } =
      (mint ctx contract to_ quantity s).map fun s1 => { s1 with locked := l } := by
  unfold mint
  cases h1 : require_auth ctx ctx.self with
  | error e => simp [bind, Except.bind, Except.map]
  | ok u =>
    cases h2 : ctx.is_account to_ <;> simp [bind, Except.bind, check, Except.map]
    cases h3 : quantity.is_valid <;> simp
    by_cases h4 : 0 < quantity.amount <;> simp [h4]
    cases h5 : stats_find s.stats contract (symbol_code quantity.symbol) with
    | none => simp
    | some st =>
      simp
      by_cases h6 : quantity.symbol = st.supply.symbol <;> simp [h6]
      by_cases h7 : quantity.amount ≤ wrap64 (int64_max - st.supply.amount) <;> simp [h7]
      cases h8 : st.supply.add_assign quantity with
      | error e => simp
      | ok supply =>
        simp [pure, Except.pure]
        unfold require_recipient
        split <;> simp

/-- C12: behaviour of `icpreceive` under the callback authorization.  A memo longer
than 256 bytes makes the call fail, and the state stays as it was.  Otherwise, when the
refund byte is zero the call is exactly `mint(contract, to, quantity)`, which sends no
action; when the refund byte is not zero it succeeds and sends exactly one action, the
`transfer` on `contract` from this contract to `to` of `quantity`, changing no table at
all (in particular no supply row).  The `locked` table is neither consulted nor
changed: the outcome does not depend on it and carries it along as it is. -/
theorem icpreceive_behaviour (ctx : Context) (contract icp_from to_ : AccountName)
    (quantity : asset) (memo : String) (refund : Nat) (s : State)
    (hauth : has_callback_auth ctx) :
    (memo.utf8ByteSize > 256 →
      icpreceive ctx contract icp_from to_ quantity memo refund s =
        .error "memo has more than 256 bytes" ∧
      commit (icpreceive ctx contract icp_from to_ quantity memo refund) s = s) ∧
    (memo.utf8ByteSize ≤ 256 → refund = 0 →
      icpreceive ctx contract icp_from to_ quantity memo refund s =
        mint ctx contract to_ quantity s ∧
      ∀ s', icpreceive ctx contract icp_from to_ quantity memo refund s = .ok s' →
        s'.actions = s.actions ∧ s'.locked = s.locked) ∧
    (memo.utf8ByteSize ≤ 256 → refund ≠ 0 →
      icpreceive ctx contract icp_from to_ quantity memo refund s =
        .ok { s with actions := s.actions ++
          [{ authorization := [{ actor := ctx.self, permission := N_active }],
             account := contract, name := N_transfer,
             data := .transfer
               { from_ := ctx.self, to_ := to_, quantity := quantity, memo := memo } }] }) ∧
    (∀ l, icpreceive ctx contract icp_from to_ quantity memo refund { s with locked := l } =
      (icpreceive ctx contract icp_from to_ quantity memo refund s).map
        fun s1 => { s1 with locked := l }) := by
  refine ⟨?_, ?_, ?_, ?_⟩
  · intro hlong
    have h2 : ¬ memo.utf8ByteSize ≤ 256 := by omega
    have h : icpreceive ctx contract icp_from to_ quantity memo refund s =
        .error "memo has more than 256 bytes" := by
      unfold icpreceive
      rw [require_auth2_of_callback ctx hauth]
      simp [bind, Except.bind, check, h2]
    refine ⟨h, ?_⟩
    unfold commit; rw [h]
  · intro hshort hrf
    have h : icpreceive ctx contract icp_from to_ quantity memo refund s =
        mint ctx contract to_ quantity s := by
      unfold icpreceive
      rw [require_auth2_of_callback ctx hauth]
      simp [bind, Except.bind, check, hshort, hrf]
    refine ⟨h, ?_⟩
    intro s' hok
    rw [h] at hok
    have hfr := mint_frame _ _ _ _ _ _ hok
    exact ⟨hfr.2.2.2, hfr.2.1⟩
  · intro hshort hrf
    unfold icpreceive
    rw [require_auth2_of_callback ctx hauth]
    simp [bind, Except.bind, check, hshort, hrf, pure, Except.pure, send]
  · intro l
    unfold icpreceive
    rw [require_auth2_of_callback ctx hauth]
    by_cases hshort : memo.utf8ByteSize ≤ 256
    · by_cases hrf : refund = 0
      · simp only [bind, Except.bind, check, hshort, hrf, decide_True, if_true]
        exact mint_ignores_locked _ _ _ _ _ _
      · simp [bind, Except.bind, check, hshort, hrf, pure, Except.pure, send, Except.map]
    · simp [bind, Except.bind, check, hshort, Except.map]

set_option maxRecDepth 8000 in
/-- Witness of C12: a received transfer of `0.0010 TOK` is minted to `bob`, a received
refund is paid out by a `transfer`, and a memo of 257 bytes is rejected. -/
theorem icpreceive_behaviour_witness :
    has_callback_auth example_callback_ctx ∧
    icpreceive example_callback_ctx (N "eosio.token") (N "alice") (N "bob")
        { amount := 10, symbol := TOK } "" 0 example_state =
      mint example_callback_ctx (N "eosio.token") (N "bob") { amount := 10, symbol := TOK }
        example_state ∧
    icpreceive example_callback_ctx (N "eosio.token") (N "alice") (N "bob")
        { amount := 10, symbol := TOK } "" 0 example_state =
      .ok { example_state with
            stats := [{ scope := N "eosio.token", supply := { amount := 80, symbol := TOK } }],
            accounts := [{ contract := N "eosio.token", owner := N "bob",
                           balance := { amount := 10, symbol := TOK } }],
            notified := [N "bob"] } ∧
    icpreceive example_callback_ctx (N "eosio.token") (N "alice") (N "bob")
        { amount := 10, symbol := TOK } "" 1 example_state =
      .ok { example_state with
            actions := [transfer_action example_callback_ctx (N "eosio.token") (N "bob")
              { amount := 10, symbol := TOK } ""] } ∧
    icpreceive example_callback_ctx (N "eosio.token") (N "alice") (N "bob")
        { amount := 10, symbol := TOK } example_long_memo 0 example_state =
      .error "memo has more than 256 bytes" :=
  have h := icpreceive_behaviour example_callback_ctx (N "eosio.token") (N "alice") (N "bob")
    { amount := 10, symbol := TOK } "" 0 example_state (by decide)
  have h1 := icpreceive_behaviour example_callback_ctx (N "eosio.token") (N "alice") (N "bob")
    { amount := 10, symbol := TOK } "" 1 example_state (by decide)
  have h2 := icpreceive_behaviour example_callback_ctx (N "eosio.token") (N "alice") (N "bob")
    { amount := 10, symbol := TOK } example_long_memo 0 example_state (by decide)
  ⟨by decide, (h.2.1 (by decide) rfl).1, by rfl, h1.2.2.1 (by decide) (by decide),
    (h2.1 (by decide)).1⟩

/-! ## Supply bounds -/

theorem error_of_not_ok {α : Type} (outcome : Except String α)
    (hnever : ∀ result, outcome ≠ Except.ok result) : ∃ msg, outcome = Except.error msg :=
  match outcome, hnever with
  | Except.error msg, _ => ⟨msg, rfl⟩
  | Except.ok result, hres => (hres result rfl).elim

/-- C15: supply bounds.  Let `st` be the supply row of the symbol code of `quantity`
in the scope of `contract`, with `0 ≤ st.supply.amount ≤ 2^63 - 1`.  A successful
`mint` leaves the row with the amount `st.supply.amount + quantity.amount`, computed
without wrap-around and at most `2^63 - 1`, and `mint` fails when `quantity.amount >
2^63 - 1 - st.supply.amount`; a successful `burn` leaves the row with the amount
`st.supply.amount - quantity.amount`, which is not negative, and `burn` fails when
`quantity.amount > st.supply.amount`; both fail when the symbol of `quantity` differs
from the symbol of the row.  Both also fail when `quantity.amount ≤ 0` and when there
is no supply row for the symbol. -/
theorem supply_bounds (ctx : Context) (contract to_ from_ : AccountName) (quantity : asset)
    (s : State) :
    (∀ st, stats_find s.stats contract (symbol_code quantity.symbol) = some st →
      0 ≤ st.supply.amount → st.supply.amount ≤ 2 ^ 63 - 1 →
      (∀ s', mint ctx contract to_ quantity s = .ok s' →
        st.supply.amount + quantity.amount ≤ 2 ^ 63 - 1 ∧
        stats_find s'.stats contract (symbol_code quantity.symbol) =
          some { st with supply :=
            { amount := st.supply.amount + quantity.amount,
              symbol := st.supply.symbol } }) ∧
      (quantity.amount > 2 ^ 63 - 1 - st.supply.amount →
        ∃ e, mint ctx contract to_ quantity s = .error e) ∧
      (∀ s', burn ctx contract from_ quantity s = .ok s' →
        0 ≤ st.supply.amount - quantity.amount ∧
        stats_find s'.stats contract (symbol_code quantity.symbol) =
          some { st with supply :=
            { amount := st.supply.amount - quantity.amount,
              symbol := st.supply.symbol } }) ∧
      (quantity.amount > st.supply.amount →
        ∃ e, burn ctx contract from_ quantity s = .error e) ∧
      (quantity.symbol ≠ st.supply.symbol →
        (∃ e, mint ctx contract to_ quantity s = .error e) ∧
        ∃ e, burn ctx contract from_ quantity s = .error e)) ∧
    (quantity.amount ≤ 0 →
      (∃ e, mint ctx contract to_ quantity s = .error e) ∧
      ∃ e, burn ctx contract from_ quantity s = .error e) ∧
    (stats_find s.stats contract (symbol_code quantity.symbol) = none →
      (∃ e, mint ctx contract to_ quantity s = .error e) ∧
      ∃ e, burn ctx contract from_ quantity s = .error e) := by
  refine ⟨?_, ?_, ?_⟩
  · intro st hfind h0 hmax
    have hst : in_int64 st.supply.amount := by
      unfold in_int64; constructor <;> omega
    have hcode : symbol_code st.supply.symbol = symbol_code quantity.symbol := by
      have hm := List.find?_some hfind
      simp only [Bool.and_eq_true, beq_iff_eq] at hm
      exact hm.2
    have hwrap : wrap64 (int64_max - st.supply.amount) = 2 ^ 63 - 1 - st.supply.amount := by
      unfold wrap64 int64_max
      norm_num at h0 hmax ⊢
      omega
    refine ⟨?_, ?_, ?_, ?_, ?_⟩
    · intro s' hok
      rw [mint_ok_iff] at hok
      obtain ⟨st', supply, -, -, -, hpos, hfind', -, hle, hadd, rfl⟩ := hok
      rw [hfind] at hfind'
      cases hfind'
      rw [add_assign_ok_iff] at hadd
      obtain ⟨-, -, -, rfl⟩ := hadd
      obtain ⟨-, hsum, hexact⟩ := mint_sum_in_int64 _ _ hst hpos hle
      refine ⟨by unfold int64_max at hsum; exact hsum, ?_⟩
      simp only [(require_recipient_frame to_ s).2.2.2.1, hexact]
      exact stats_find_set_supply _ _ _ _ _ hfind hcode
    · intro hgt
      apply error_of_not_ok
      intro s' hok
      rw [mint_ok_iff] at hok
      obtain ⟨st', supply, -, -, -, -, hfind', -, hle, -, -⟩ := hok
      rw [hfind] at hfind'
      cases hfind'
      rw [hwrap] at hle
      omega
    · intro s' hok
      rw [burn_ok_iff] at hok
      obtain ⟨st', supply, accounts, -, -, hpos, hfind', -, hle, hsub, -, rfl⟩ := hok
      rw [hfind] at hfind'
      cases hfind'
      rw [sub_assign_ok_iff] at hsub
      obtain ⟨-, -, -, rfl⟩ := hsub
      obtain ⟨hnn, hexact⟩ := burn_difference_in_int64 _ _ hst hpos hle
      refine ⟨hnn, ?_⟩
      simp only [hexact]
      exact stats_find_set_supply _ _ _ _ _ hfind hcode
    · intro hgt
      apply error_of_not_ok
      intro s' hok
      rw [burn_ok_iff] at hok
      obtain ⟨st', supply, accounts, -, -, -, hfind', -, hle, -, -, -⟩ := hok
      rw [hfind] at hfind'
      cases hfind'
      omega
    · intro hne
      constructor
      · apply error_of_not_ok
        intro s' hok
        rw [mint_ok_iff] at hok
        obtain ⟨st', supply, -, -, -, -, hfind', hsym, -, -, -⟩ := hok
        rw [hfind] at hfind'
        cases hfind'
        exact hne hsym
      · apply error_of_not_ok
        intro s' hok
        rw [burn_ok_iff] at hok
        obtain ⟨st', supply, accounts, -, -, -, hfind', hsym, -, -, -, -⟩ := hok
        rw [hfind] at hfind'
        cases hfind'
        exact hne hsym
  · intro hle
    constructor
    · apply error_of_not_ok
      intro s' hok
      rw [mint_ok_iff] at hok
      obtain ⟨st', supply, -, -, -, hpos, -, -, -, -, -⟩ := hok
      omega
    · apply error_of_not_ok
      intro s' hok
      rw [burn_ok_iff] at hok
      obtain ⟨st', supply, accounts, -, -, hpos, -, -, -, -, -, -⟩ := hok
      omega
  · intro hnone
    constructor
    · apply error_of_not_ok
      intro s' hok
      rw [mint_ok_iff] at hok
      obtain ⟨st', supply, -, -, -, -, hfind', -, -, -, -⟩ := hok
      rw [hnone] at hfind'
      cases hfind'
    · apply error_of_not_ok
      intro s' hok
      rw [burn_ok_iff] at hok
      obtain ⟨st', supply, accounts, -, -, -, hfind', -, -, -, -, -⟩ := hok
      rw [hnone] at hfind'
      cases hfind'

/-- Witness of C15: on a supply of `0.0070 TOK`, minting `0.0010 TOK` gives
`0.0080 TOK`, burning `0.0030 TOK` gives `0.0040 TOK`, and a zero quantity is
rejected by both. -/
theorem supply_bounds_witness :
    stats_find example_wrapped_state.stats (N "eosio.token") (symbol_code TOK) =
      some { scope := N "eosio.token", supply := { amount := 70, symbol := TOK } } ∧
    mint example_callback_ctx (N "eosio.token") (N "bob") { amount := 10, symbol := TOK }
        example_wrapped_state =
      .ok { example_wrapped_state with
            stats := [{ scope := N "eosio.token", supply := { amount := 80, symbol := TOK } }],
            accounts := [{ contract := N "eosio.token", owner := N "alice",
                           balance := { amount := 50, symbol := TOK } },
                         { contract := N "eosio.token", owner := N "bob",
                           balance := { amount := 10, symbol := TOK } }],
            notified := [N "bob"] } ∧
    ((70 : Int) + 10 ≤ 2 ^ 63 - 1) ∧
    burn example_callback_ctx (N "eosio.token") (N "alice") { amount := 30, symbol := TOK }
        example_wrapped_state =
      .ok { example_wrapped_state with
            stats := [{ scope := N "eosio.token", supply := { amount := 40, symbol := TOK } }],
            accounts := [{ contract := N "eosio.token", owner := N "alice",
                           balance := { amount := 20, symbol := TOK } }],
            notified := [N "alice"] } ∧
    ((0 : Int) ≤ 70 - 30) ∧
    (∃ e, mint example_callback_ctx (N "eosio.token") (N "bob") { amount := 0, symbol := TOK }
      example_wrapped_state = .error e) ∧
    (∃ e, burn example_callback_ctx (N "eosio.token") (N "alice")
      { amount := 71, symbol := TOK } example_wrapped_state = .error e) :=
  have h := (supply_bounds example_callback_ctx (N "eosio.token") (N "bob") (N "alice")
    { amount := 10, symbol := TOK } example_wrapped_state).1
    { scope := N "eosio.token", supply := { amount := 70, symbol := TOK } }
    (by decide) (by decide) (by decide)
  have hb := (supply_bounds example_callback_ctx (N "eosio.token") (N "bob") (N "alice")
    { amount := 30, symbol := TOK } example_wrapped_state).1
    { scope := N "eosio.token", supply := { amount := 70, symbol := TOK } }
    (by decide) (by decide) (by decide)
  have h0 := (supply_bounds example_callback_ctx (N "eosio.token") (N "bob") (N "alice")
    { amount := 0, symbol := TOK } example_wrapped_state).2.1 (by decide)
  have h71 := (supply_bounds example_callback_ctx (N "eosio.token") (N "bob") (N "alice")
    { amount := 71, symbol := TOK } example_wrapped_state).1
    { scope := N "eosio.token", supply := { amount := 70, symbol := TOK } }
    (by decide) (by decide) (by decide)
  ⟨by decide, by rfl, (h.1 _ (by rfl)).1, by rfl, (hb.2.2.1 _ (by rfl)).1, h0.1,
    h71.2.2.2.1 (by decide)⟩

/-! ## The notification handler -/

theorem icp_transfer_or_deposit_other (ctx : Context) (contract from_ to_ : AccountName)
    (quantity : asset) (memo : String) (s : State) (hto : to_ ≠ ctx.self) :
    icp_transfer_or_deposit ctx contract from_ to_ quantity memo s = .ok s := by
  unfold icp_transfer_or_deposit
  rw [if_pos hto]

theorem icp_transfer_or_deposit_plain (ctx : Context) (contract from_ : AccountName)
    (quantity : asset) (memo : String) (s : State)
    (hmemo : starts_with "icp ".toList memo.toList = false) :
    icp_transfer_or_deposit ctx contract from_ ctx.self quantity memo s =
      (match deposits_find s.deposits contract (account_asset_key from_ quantity) with
      | none =>
        (deposits_available_primary_key s.deposits contract).bind fun pk =>
          (deposits_emplace s.deposits
            { scope := contract, pk := pk, account := from_, balance := quantity }).bind
            fun dps => .ok { s with deposits := dps }
      | some it =>
        (it.balance.add_assign quantity).bind fun b =>
          .ok { s with deposits := deposits_set_balance s.deposits contract it.pk b }) := by
  unfold icp_transfer_or_deposit
  simp only [ne_eq, not_true_eq_false, if_false, hmemo, Bool.false_eq_true]
  rfl

theorem icp_transfer_or_deposit_directive (ctx : Context) (contract from_ : AccountName)
    (quantity : asset) (memo : String) (s : State)
    (hmemo : starts_with "icp ".toList memo.toList = true) :
    icp_transfer_or_deposit ctx contract from_ ctx.self quantity memo s =
      (match string_find_char memo.toList ' ' 4 with
      | none => .error "invalid icp token transfer memo"
      | some account_end =>
        (name_of_string ((memo.toList.drop 4).take (account_end - 4))).bind fun icp_to =>
          (stoul (memo.toList.drop (account_end + 1))).bind fun v =>
            icp_transfer ctx contract from_ icp_to quantity memo (v % 2 ^ 32) false s) := by
  unfold icp_transfer_or_deposit
  simp only [ne_eq, not_true_eq_false, if_false, hmemo, if_true]
  rfl

theorem icp_transfer_or_deposit_ok_cases (ctx : Context) (contract from_ to_ : AccountName)
    (quantity : asset) (memo : String) (s s' : State)
    (hok : icp_transfer_or_deposit ctx contract from_ to_ quantity memo s = .ok s') :
    (to_ ≠ ctx.self ∧ s' = s) ∨
    (to_ = ctx.self ∧ starts_with "icp ".toList memo.toList = true ∧
      ∃ icp_to e, icp_transfer ctx contract from_ icp_to quantity memo e false s = .ok s') ∨
    (to_ = ctx.self ∧ starts_with "icp ".toList memo.toList = false ∧
      ((deposits_find s.deposits contract (account_asset_key from_ quantity) = none ∧
          ∃ pk, deposits_available_primary_key s.deposits contract = .ok pk ∧
            deposits_emplace s.deposits
              { scope := contract, pk := pk, account := from_, balance := quantity } =
              .ok s'.deposits ∧
            s' = { s with deposits := s'.deposits }) ∨
        (∃ it b, deposits_find s.deposits contract (account_asset_key from_ quantity) =
            some it ∧
          it.balance.add_assign quantity = .ok b ∧
          s' = { s with deposits := deposits_set_balance s.deposits contract it.pk b }))) := by
  by_cases hto : to_ = ctx.self
  · subst hto
    right
    cases hmemo : starts_with "icp ".toList memo.toList with
    | true =>
      left
      refine ⟨rfl, rfl, ?_⟩
      rw [icp_transfer_or_deposit_directive _ _ _ _ _ _ hmemo] at hok
      generalize memo.toList = l at hok
      cases hf : string_find_char l ' ' 4 with
      | none => simp [hf] at hok
      | some account_end =>
        simp only [hf] at hok
        cases hn : name_of_string ((l.drop 4).take (account_end - 4)) with
        | error e => simp [hn, Except.bind] at hok
        | ok icp_to =>
          cases hv : stoul (l.drop (account_end + 1)) with
          | error e => simp [hn, hv, Except.bind] at hok
          | ok v =>
            simp only [hn, hv, Except.bind] at hok
            exact ⟨icp_to, _, hok⟩
    | false =>
      right
      refine ⟨rfl, rfl, ?_⟩
      rw [icp_transfer_or_deposit_plain _ _ _ _ _ _ hmemo] at hok
      cases hf : deposits_find s.deposits contract (account_asset_key from_ quantity) with
      | none =>
        left
        simp only [hf] at hok
        refine ⟨rfl, ?_⟩
        cases hpk : deposits_available_primary_key s.deposits contract with
        | error e => simp [hpk, Except.bind] at hok
        | ok pk =>
          cases hem : deposits_emplace s.deposits
              { scope := contract, pk := pk, account := from_, balance := quantity } with
          | error e => simp [hpk, hem, Except.bind] at hok
          | ok dps =>
            simp only [hpk, hem, Except.bind, Except.ok.injEq] at hok
            subst hok
            exact ⟨pk, rfl, hem, rfl⟩
      | some it =>
        right
        simp only [hf] at hok
        cases hb : it.balance.add_assign quantity with
        | error e => simp [hb, Except.bind] at hok
        | ok b =>
          simp only [hb, Except.bind, Except.ok.injEq] at hok
          exact ⟨it, b, rfl, hb, hok.symm⟩
  · left
    rw [icp_transfer_or_deposit_other _ _ _ _ _ _ _ hto] at hok
    cases hok
    exact ⟨hto, rfl⟩

theorem icptransfer_frame (ctx : Context) (contract from_ icp_to : AccountName)
    (quantity : asset) (memo : String) (expiration : Nat) (s s' : State)
    (hok : icptransfer ctx contract from_ icp_to quantity memo expiration s = .ok s') :
    s'.stats = s.stats ∧ s'.accounts = s.accounts ∧ s'.co = s.co := by
  rw [icptransfer_ok_iff] at hok
  obtain ⟨dp, dps, -, -, -, -, htr⟩ := hok
  have hd := (icp_transfer_ok_iff _ _ _ _ _ _ _ _ _ _).1 htr
  obtain ⟨-, -, -, rfl⟩ := hd
  exact ⟨rfl, rfl, rfl⟩

theorem icp_transfer_or_deposit_frame (ctx : Context) (contract from_ to_ : AccountName)
    (quantity : asset) (memo : String) (s s' : State)
    (hok : icp_transfer_or_deposit ctx contract from_ to_ quantity memo s = .ok s') :
    s'.stats = s.stats ∧ s'.accounts = s.accounts ∧ s'.co = s.co := by
  rcases icp_transfer_or_deposit_ok_cases _ _ _ _ _ _ _ _ hok with
    ⟨-, rfl⟩ | ⟨-, -, icp_to, e, htr⟩ | ⟨-, -, hdep⟩
  · exact ⟨rfl, rfl, rfl⟩
  · have hd := (icp_transfer_ok_iff _ _ _ _ _ _ _ _ _ _).1 htr
    obtain ⟨-, -, -, rfl⟩ := hd
    exact ⟨rfl, rfl, rfl⟩
  · rcases hdep with ⟨-, pk, -, -, hs'⟩ | ⟨it, b, -, -, hs'⟩
    · rw [hs']; exact ⟨rfl, rfl, rfl⟩
    · rw [hs']; exact ⟨rfl, rfl, rfl⟩

/-- C20: the deposit-side entry points never mint or burn.  A successful `icptransfer`
and a successful `icp_transfer_or_deposit` (whichever path the memo selects) leave the
supply table and the wrapped balances as they are; and a notification whose `to` is
not this contract succeeds and returns the state as it is: no table changes and no
action is sent. -/
theorem deposit_side_never_mints (ctx : Context) (contract from_ icp_to to_ : AccountName)
    (quantity : asset) (memo : String) (expiration : Nat) (s : State) :
    (∀ s', icptransfer ctx contract from_ icp_to quantity memo expiration s = .ok s' →
      s'.stats = s.stats ∧ s'.accounts = s.accounts) ∧
    (∀ s', icp_transfer_or_deposit ctx contract from_ to_ quantity memo s = .ok s' →
      s'.stats = s.stats ∧ s'.accounts = s.accounts) ∧
    (to_ ≠ ctx.self →
      icp_transfer_or_deposit ctx contract from_ to_ quantity memo s = .ok s) := by
  refine ⟨?_, ?_, ?_⟩
  · intro s' hok
    have h := icptransfer_frame _ _ _ _ _ _ _ _ _ hok
    exact ⟨h.1, h.2.1⟩
  · intro s' hok
    have h := icp_transfer_or_deposit_frame _ _ _ _ _ _ _ _ hok
    exact ⟨h.1, h.2.1⟩
  · exact icp_transfer_or_deposit_other _ _ _ _ _ _ _

/-- Witness of C20: a bridged deposit and a plain deposit leave supply and wrapped
balances alone, and a transfer between other accounts is ignored. -/
theorem deposit_side_never_mints_witness :
    icptransfer example_alice_ctx (N "eosio.token") (N "alice") (N "bob")
        { amount := 400000, symbol := TOK } "" 100 example_state =
      .ok example_after_icptransfer ∧
    example_after_icptransfer.stats = example_state.stats ∧
    example_after_icptransfer.accounts = example_state.accounts ∧
    N "bob" ≠ example_alice_ctx.self ∧
    icp_transfer_or_deposit example_alice_ctx (N "eosio.token") (N "alice") (N "bob")
        { amount := 400000, symbol := TOK } "icp bob 100" example_state =
      .ok example_state :=
  have h := deposit_side_never_mints example_alice_ctx (N "eosio.token") (N "alice") (N "bob")
    (N "bob") { amount := 400000, symbol := TOK } "" 100 example_state
  have h2 := deposit_side_never_mints example_alice_ctx (N "eosio.token") (N "alice")
    (N "bob") (N "bob") { amount := 400000, symbol := TOK } "icp bob 100" 100 example_state
  ⟨by rfl, (h.1 example_after_icptransfer (by rfl)).1,
    (h.1 example_after_icptransfer (by rfl)).2, by decide, h2.2.2 (by decide)⟩

/-! ## Incomplete configuration -/

theorem icp_transfer_incomplete (ctx : Context) (contract from_ icp_to : AccountName)
    (quantity : asset) (memo : String) (expiration : Nat) (refund : Bool) (s : State)
    (hco : (get_co s).peer = 0 ∨ (get_co s).icp = 0) :
    icp_transfer ctx contract from_ icp_to quantity memo expiration refund s =
        .error "empty remote peer contract" ∨
      icp_transfer ctx contract from_ icp_to quantity memo expiration refund s =
        .error "empty local icp contract" := by
  unfold icp_transfer
  by_cases h1 : (get_co s).peer = 0
  · left
    simp [h1, bind, Except.bind, check]
  · right
    have h2 : (get_co s).icp = 0 := by
      rcases hco with h | h
      · exact absurd h h1
      · exact h
    simp [h1, h2, bind, Except.bind, check]

theorem get_co_incomplete (s : State)
    (hco : s.co = none ∨ ∃ c, s.co = some c ∧ (c.peer = 0 ∨ c.icp = 0)) :
    (get_co s).peer = 0 ∨ (get_co s).icp = 0 := by
  unfold get_co
  rcases hco with h | ⟨c, h, hc⟩
  · left; rw [h]; rfl
  · rw [h]; exact hc

theorem commit_of_error (f : State → Except String State) (s : State)
    (h : ∃ e, f s = .error e) : commit f s = s := by
  obtain ⟨e, he⟩ := h
  unfold commit
  rw [he]

/-- C18: the dispatcher requires a complete configuration.  In a state whose
configuration is absent, or has an empty peer contract name, or has an empty local
channel name, `icp_transfer` fails at one of its first two checks, whatever sequence
number the channel would return, so no escrow row is created and no action is sent;
and `icptransfer`, `icprefund` and a notification whose memo starts with the bridge
directive all fail, leaving the state as it was. -/
theorem incomplete_config_blocks (ctx : Context) (contract from_ icp_to : AccountName)
    (quantity : asset) (memo : String) (expiration : Nat) (s : State)
    (hco : s.co = none ∨ ∃ c, s.co = some c ∧ (c.peer = 0 ∨ c.icp = 0)) :
    (∀ refund,
      (icp_transfer ctx contract from_ icp_to quantity memo expiration refund s =
          .error "empty remote peer contract" ∨
        icp_transfer ctx contract from_ icp_to quantity memo expiration refund s =
          .error "empty local icp contract") ∧
      commit (icp_transfer ctx contract from_ icp_to quantity memo expiration refund) s = s) ∧
    ((∃ e, icptransfer ctx contract from_ icp_to quantity memo expiration s = .error e) ∧
      commit (icptransfer ctx contract from_ icp_to quantity memo expiration) s = s) ∧
    ((∃ e, icprefund ctx contract from_ icp_to quantity memo expiration s = .error e) ∧
      commit (icprefund ctx contract from_ icp_to quantity memo expiration) s = s) ∧
    (starts_with "icp ".toList memo.toList = true →
      (∃ e, icp_transfer_or_deposit ctx contract from_ ctx.self quantity memo s = .error e) ∧
      commit (icp_transfer_or_deposit ctx contract from_ ctx.self quantity memo) s = s) := by
  have hg := get_co_incomplete s hco
  have hdisp : ∀ (c f t : AccountName) (q : asset) (m : String) (x : Nat) (r : Bool)
      (s1 s' : State), get_co s1 = get_co s →
      icp_transfer ctx c f t q m x r s1 ≠ .ok s' := by
    intro c f t q m x r s1 s' hs1 hok
    have hg1 : (get_co s1).peer = 0 ∨ (get_co s1).icp = 0 := by rw [hs1]; exact hg
    rcases icp_transfer_incomplete ctx c f t q m x r s1 hg1 with h | h <;>
      rw [h] at hok <;> cases hok
  refine ⟨?_, ?_, ?_, ?_⟩
  · intro refund
    have h := icp_transfer_incomplete ctx contract from_ icp_to quantity memo expiration
      refund s hg
    refine ⟨h, ?_⟩
    apply commit_of_error
    rcases h with h | h
    · exact ⟨_, h⟩
    · exact ⟨_, h⟩
  · have h : ∃ e, icptransfer ctx contract from_ icp_to quantity memo expiration s =
        .error e := by
      apply error_of_not_ok
      intro s' hok
      rw [icptransfer_ok_iff] at hok
      obtain ⟨dp, dps, -, -, -, -, htr⟩ := hok
      exact hdisp _ _ _ _ _ _ _ { s with deposits := dps } _ rfl htr
    exact ⟨h, commit_of_error _ _ h⟩
  · have h : ∃ e, icprefund ctx contract from_ icp_to quantity memo expiration s =
        .error e := by
      apply error_of_not_ok
      intro s' hok
      rw [icprefund_ok_iff] at hok
      obtain ⟨-, -, s1, hburn, htr⟩ := hok
      have hfr := burn_frame _ _ _ _ _ _ hburn
      have hs1 : get_co s1 = get_co s := by unfold get_co; rw [hfr.1]
      exact hdisp _ _ _ _ _ _ _ _ _ hs1 htr
    exact ⟨h, commit_of_error _ _ h⟩
  · intro hmemo
    have h : ∃ e, icp_transfer_or_deposit ctx contract from_ ctx.self quantity memo s =
        .error e := by
      apply error_of_not_ok
      intro s' hok
      rcases icp_transfer_or_deposit_ok_cases _ _ _ _ _ _ _ _ hok with
        ⟨hne, -⟩ | ⟨-, -, icp_to, e, htr⟩ | ⟨-, hplain, -⟩
      · exact hne rfl
      · exact hdisp _ _ _ _ _ _ _ _ _ rfl htr
      · rw [hmemo] at hplain
        cases hplain
    exact ⟨h, commit_of_error _ _ h⟩

/-- Witness of C18: without a stored configuration nothing can be dispatched. -/
theorem incomplete_config_blocks_witness :
    ({ example_wrapped_state with co := none } : State).co = none ∧
    icp_transfer example_alice_ctx (N "eosio.token") (N "alice") (N "bob")
        { amount := 30, symbol := TOK } "icp bob 100" 100 false
        { example_wrapped_state with co := none } =
      .error "empty remote peer contract" ∧
    (∃ e, icptransfer example_alice_ctx (N "eosio.token") (N "alice") (N "bob")
        { amount := 30, symbol := TOK } "icp bob 100" 100
        { example_wrapped_state with co := none } = .error e) ∧
    (∃ e, icprefund example_alice_ctx (N "eosio.token") (N "alice") (N "bob")
        { amount := 30, symbol := TOK } "icp bob 100" 100
        { example_wrapped_state with co := none } = .error e) ∧
    (∃ e, icp_transfer_or_deposit example_alice_ctx (N "eosio.token") (N "alice")
        example_alice_ctx.self { amount := 30, symbol := TOK } "icp bob 100"
        { example_wrapped_state with co := none } = .error e) :=
  have h := incomplete_config_blocks example_alice_ctx (N "eosio.token") (N "alice")
    (N "bob") { amount := 30, symbol := TOK } "icp bob 100" 100
    { example_wrapped_state with co := none } (Or.inl rfl)
  ⟨rfl, by rfl, h.2.1.1, h.2.2.1.1, (h.2.2.2 (by decide)).1⟩

/-! ## The bridge directive -/

theorem index_of_char_append (c : Char) (n rest : List Char) (hn : c ∉ n) :
    index_of_char c (n ++ c :: rest) = some n.length := by
  induction n with
  | nil => simp [index_of_char]
  | cons x xs ih =>
    have hx : x ≠ c := fun h => hn (h ▸ List.mem_cons_self _ _)
    have hxs : c ∉ xs := fun h => hn (List.mem_cons_of_mem _ h)
    simp [index_of_char, hx, ih hxs]

theorem is_digit_not_space (c : Char) (h : is_digit c = true) : is_space c = false := by
  unfold is_digit at h
  unfold is_space
  simp only [Bool.and_eq_true, decide_eq_true_eq] at h
  have h0 : '0'.toNat = 48 := by decide
  have h9 : '9'.toNat = 57 := by decide
  rw [h0, h9] at h
  simp only [Bool.or_eq_false_iff, beq_eq_false_iff_ne, ne_eq, Bool.and_eq_false_iff,
    decide_eq_false_iff_not]
  constructor
  · omega
  · right; omega

theorem is_digit_not_sign (c : Char) (h : is_digit c = true) : c ≠ '-' ∧ c ≠ '+' := by
  unfold is_digit at h
  simp only [Bool.and_eq_true, decide_eq_true_eq] at h
  have h0 : '0'.toNat = 48 := by decide
  rw [h0] at h
  constructor
  · intro hc
    rw [hc] at h
    revert h
    decide
  · intro hc
    rw [hc] at h
    revert h
    decide

theorem stoul_digits (ds : List Char) (hds : ds ≠ []) (hdig : ∀ d ∈ ds, is_digit d = true)
    (he : decimal_value ds < 2 ^ 32) : stoul ds = .ok (decimal_value ds) := by
  cases ds with
  | nil => exact absurd rfl hds
  | cons d rest =>
    have hd := hdig d (List.mem_cons_self _ _)
    have hsp := is_digit_not_space d hd
    obtain ⟨hm, hp⟩ := is_digit_not_sign d hd
    have htake : (d :: rest).takeWhile is_digit = d :: rest := by
      rw [List.takeWhile_eq_self_iff]
      exact hdig
    unfold stoul
    have hdrop : (d :: rest).dropWhile is_space = d :: rest := by
      rw [List.dropWhile_cons_of_neg]
      simp [hsp]
    simp only [hdrop, List.head?_cons]
    have h1 : (some d == some '-') = false := by
      simp [hm]
    have h2 : (some d == some '+') = false := by
      simp [hp]
    simp only [h1, h2, Bool.or_self, Bool.false_eq_true, if_false, htake]
    have h3 : decimal_value (d :: rest) ≤ 4294967295 := by
      norm_num at he
      omega
    simp [h3]

theorem directive_memo_parts (n ds : List Char) (hn : ' ' ∉ n) :
    starts_with "icp ".toList ("icp ".toList ++ n ++ ' ' :: ds) = true ∧
    string_find_char ("icp ".toList ++ n ++ ' ' :: ds) ' ' 4 = some (n.length + 4) ∧
    (("icp ".toList ++ n ++ ' ' :: ds).drop 4).take (n.length + 4 - 4) = n ∧
    ("icp ".toList ++ n ++ ' ' :: ds).drop (n.length + 4 + 1) = ds := by
  have hicp : "icp ".toList = ['i', 'c', 'p', ' '] := rfl
  rw [hicp]
  refine ⟨?_, ?_, ?_, ?_⟩
  · simp [starts_with]
  · unfold string_find_char
    have hd : (['i', 'c', 'p', ' '] ++ n ++ ' ' :: ds).drop 4 = n ++ ' ' :: ds := by
      simp
    rw [hd, index_of_char_append _ _ _ hn]
    rfl
  · simp
  · have hd : (['i', 'c', 'p', ' '] ++ n ++ ' ' :: ds) =
        (['i', 'c', 'p', ' '] ++ n ++ [' ']) ++ ds := by simp
    rw [hd]
    apply List.drop_left'
    simp

/-- C13: bridge directive in a transfer notification.  For a notification `(code,
from, to = self, quantity, memo)` whose memo is `"icp "`, a string `n` without a
space, one space, and a non-empty run of decimal digits of value `e < 2^32`, the
handler `icp_transfer_or_deposit` converts `n` with the `name` constructor and is then
exactly `icp_transfer(code, from, name(n), quantity, memo, e, refund = false)`; it
fails when `n` is not a name.  So on success the deposit table is the same and the
`locked` table gains one row `(seq, code, from, quantity, refund = false)`. -/
theorem bridge_directive (ctx : Context) (code from_ : AccountName) (quantity : asset)
    (s : State) (n ds : List Char)
    (hn : ' ' ∉ n) (hds : ds ≠ []) (hdig : ∀ d ∈ ds, is_digit d = true)
    (he : decimal_value ds < 2 ^ 32) :
    icp_transfer_or_deposit ctx code from_ ctx.self quantity
        (String.mk ("icp ".toList ++ n ++ ' ' :: ds)) s =
      (name_of_string n).bind (fun icp_to =>
        icp_transfer ctx code from_ icp_to quantity
          (String.mk ("icp ".toList ++ n ++ ' ' :: ds)) (decimal_value ds) false s) ∧
    ∀ s', icp_transfer_or_deposit ctx code from_ ctx.self quantity
        (String.mk ("icp ".toList ++ n ++ ' ' :: ds)) s = .ok s' →
      s'.deposits = s.deposits ∧
      s'.locked = s.locked ++
        [{ seq := ctx.next_packet_seq (get_co s).icp, contract := code,
           account := from_, balance := quantity, refund := false }] := by
  obtain ⟨h1, h2, h3, h4⟩ := directive_memo_parts n ds hn
  have hl : (String.mk ("icp ".toList ++ n ++ ' ' :: ds)).toList =
      "icp ".toList ++ n ++ ' ' :: ds := rfl
  have heq : icp_transfer_or_deposit ctx code from_ ctx.self quantity
        (String.mk ("icp ".toList ++ n ++ ' ' :: ds)) s =
      (name_of_string n).bind (fun icp_to =>
        icp_transfer ctx code from_ icp_to quantity
          (String.mk ("icp ".toList ++ n ++ ' ' :: ds)) (decimal_value ds) false s) := by
    rw [icp_transfer_or_deposit_directive _ _ _ _ _ _ (by rw [hl]; exact h1)]
    rw [hl, h2]
    simp only [h3, h4, stoul_digits ds hds hdig he]
    have hmod : decimal_value ds % 2 ^ 32 = decimal_value ds := Nat.mod_eq_of_lt he
    cases name_of_string n with
    | error e => rfl
    | ok v => simp only [Except.bind, hmod]
  refine ⟨heq, ?_⟩
  intro s' hok
  rw [heq] at hok
  cases hname : name_of_string n with
  | error e => simp [hname, Except.bind] at hok
  | ok v =>
    simp only [hname, Except.bind] at hok
    have hd := (icp_transfer_ok_iff _ _ _ _ _ _ _ _ _ _).1 hok
    obtain ⟨-, -, -, rfl⟩ := hd
    exact ⟨rfl, rfl⟩

/-- Witness of C13: the memo `icp bob 1234` on a transfer of `0.0040 TOK` from `alice`
dispatches them to `bob` with expiration 1234. -/
theorem bridge_directive_witness :
    ' ' ∉ "bob".toList ∧ "1234".toList ≠ [] ∧ (∀ d ∈ "1234".toList, is_digit d = true) ∧
    decimal_value "1234".toList < 2 ^ 32 ∧
    String.mk ("icp ".toList ++ "bob".toList ++ ' ' :: "1234".toList) = "icp bob 1234" ∧
    name_of_string "bob".toList = .ok (N "bob") ∧
    decimal_value "1234".toList = 1234 ∧
    icp_transfer_or_deposit example_alice_ctx (N "eosio.token") (N "alice")
        example_alice_ctx.self { amount := 40, symbol := TOK }
        (String.mk ("icp ".toList ++ "bob".toList ++ ' ' :: "1234".toList)) example_state =
      (name_of_string "bob".toList).bind (fun icp_to =>
        icp_transfer example_alice_ctx (N "eosio.token") (N "alice") icp_to
          { amount := 40, symbol := TOK }
          (String.mk ("icp ".toList ++ "bob".toList ++ ' ' :: "1234".toList))
          (decimal_value "1234".toList) false example_state) ∧
    (icp_transfer_or_deposit example_alice_ctx (N "eosio.token") (N "alice")
        example_alice_ctx.self { amount := 40, symbol := TOK } "icp bob 1234"
        example_state).toOption.map (fun s1 => (s1.deposits, s1.locked)) =
      some (example_state.deposits,
        [example_escrow, example_escrow_other,
          { seq := 3, contract := N "eosio.token", account := N "alice",
            balance := { amount := 40, symbol := TOK }, refund := false }]) :=
  ⟨by decide, by decide, by decide, by decide, by decide, by rfl, by decide,
    (bridge_directive example_alice_ctx (N "eosio.token") (N "alice")
      { amount := 40, symbol := TOK } example_state "bob".toList "1234".toList
      (by decide) (by decide) (by decide) (by decide)).1,
    by decide⟩

/-! ## Plain deposits -/

theorem foldl_max_pk_ge (rows : List deposit_row) (init : Nat) :
    init ≤ rows.foldl (fun m r => max m r.pk) init ∧
    ∀ r ∈ rows, r.pk ≤ rows.foldl (fun m r => max m r.pk) init := by
  induction rows generalizing init with
  | nil => simp
  | cons x xs ih =>
    simp only [List.foldl_cons]
    obtain ⟨h1, h2⟩ := ih (max init x.pk)
    refine ⟨le_trans (le_max_left _ _) h1, ?_⟩
    intro r hr
    rcases List.mem_cons.1 hr with rfl | hr
    · exact le_trans (le_max_right _ _) h1
    · exact h2 r hr

theorem deposits_available_primary_key_fresh (t : List deposit_row) (scope : AccountName)
    (pk : Nat) (h : deposits_available_primary_key t scope = .ok pk) :
    ∀ r ∈ t, r.scope = scope → r.pk < pk := by
  intro r hr hscope
  unfold deposits_available_primary_key at h
  have hmem : r ∈ t.filter fun r => r.scope == scope := by
    rw [List.mem_filter]
    exact ⟨hr, by simp [hscope]⟩
  have hne : (t.filter fun r => r.scope == scope).isEmpty = false := by
    cases hf : t.filter fun r => r.scope == scope with
    | nil => rw [hf] at hmem; cases hmem
    | cons x xs => rfl
  have hle := (foldl_max_pk_ge (t.filter fun r => r.scope == scope) 0).2 r hmem
  simp only [hne, Bool.false_eq_true, if_false] at h
  generalize (t.filter fun r => r.scope == scope).foldl (fun m r => max m r.pk) 0 = m
    at h hle
  by_cases hbig : m ≥ 2 ^ 64 - 2
  · rw [if_pos hbig] at h
    simp at h
  · rw [if_neg hbig] at h
    by_cases hlt : m + 1 < 2 ^ 64 - 2
    · rw [if_pos hlt] at h
      simp only [Except.ok.injEq] at h
      omega
    · rw [if_neg hlt] at h
      cases h

theorem deposits_emplace_ok_iff (t t' : List deposit_row) (r : deposit_row) :
    deposits_emplace t r = .ok t' ↔
      (∀ x ∈ t, ¬ (x.scope = r.scope ∧ x.pk = r.pk)) ∧ t' = t ++ [r] := by
  unfold deposits_emplace
  by_cases h : (t.any fun x => x.scope == r.scope && x.pk == r.pk) = true
  · rw [if_pos h]
    constructor
    · intro hc
      cases hc
    · intro hall
      exfalso
      rw [List.any_eq_true] at h
      obtain ⟨x, hx, hxk⟩ := h
      simp only [Bool.and_eq_true, beq_iff_eq] at hxk
      exact hall.1 x hx hxk
  · rw [if_neg h]
    simp only [Except.ok.injEq]
    constructor
    · intro ht
      refine ⟨?_, ht.symm⟩
      intro x hx hxk
      apply h
      rw [List.any_eq_true]
      exact ⟨x, hx, by simp [hxk.1, hxk.2]⟩
    · intro ht
      exact ht.2.symm

/-- C14: plain deposit.  For a notification `(code, from, to = self, quantity, memo)`
whose memo does not begin with `"icp "`, a successful `icp_transfer_or_deposit` does
the following.  When `from` has no deposit row for the asset of `quantity` in the scope
of `code`, it appends the row `(pk, from, quantity)` to that scope, where `pk` is the
next primary key and exceeds every key of the scope.  Otherwise it replaces the balance
of that row by the `int64_t` sum `balance + quantity`, which is the exact sum whenever
the addition does not overflow, and every row with another key is as before.  The
`locked` table, the supply table and the wrapped balances are the same and no action is
sent. -/
theorem plain_deposit_effect (ctx : Context) (code from_ : AccountName) (quantity : asset)
    (memo : String) (s s' : State)
    (hmemo : starts_with "icp ".toList memo.toList = false)
    (hok : icp_transfer_or_deposit ctx code from_ ctx.self quantity memo s = .ok s') :
    (deposits_find s.deposits code (account_asset_key from_ quantity) = none →
      ∃ pk, deposits_available_primary_key s.deposits code = .ok pk ∧
        (∀ r ∈ s.deposits, r.scope = code → r.pk < pk) ∧
        s'.deposits = s.deposits ++
          [{ scope := code, pk := pk, account := from_, balance := quantity }]) ∧
    (∀ it, deposits_find s.deposits code (account_asset_key from_ quantity) = some it →
      s'.deposits = deposits_set_balance s.deposits code it.pk
        { amount := wrap64 (it.balance.amount + quantity.amount),
          symbol := it.balance.symbol } ∧
      (in_int64 (it.balance.amount + quantity.amount) →
        s'.deposits = deposits_set_balance s.deposits code it.pk
          { amount := it.balance.amount + quantity.amount, symbol := it.balance.symbol }) ∧
      (∀ x : deposit_row, ¬ (x.scope = code ∧ x.pk = it.pk) →
        (x ∈ s'.deposits ↔ x ∈ s.deposits))) ∧
    s'.locked = s.locked ∧ s'.actions = s.actions ∧ s'.stats = s.stats ∧
    s'.accounts = s.accounts := by
  rcases icp_transfer_or_deposit_ok_cases _ _ _ _ _ _ _ _ hok with
    ⟨hne, -⟩ | ⟨-, hdir, -⟩ | ⟨-, -, hdep⟩
  · exact absurd rfl hne
  · rw [hmemo] at hdir
    cases hdir
  · rcases hdep with ⟨hnone, pk, hpk, hem, hs'⟩ | ⟨it, b, hsome, hb, hs'⟩
    · rw [deposits_emplace_ok_iff] at hem
      refine ⟨?_, ?_, ?_⟩
      · intro _
        exact ⟨pk, hpk, deposits_available_primary_key_fresh _ _ _ hpk, hem.2⟩
      · intro it hit
        rw [hnone] at hit
        cases hit
      · rw [hs']
        exact ⟨rfl, rfl, rfl, rfl⟩
    · rw [add_assign_ok_iff] at hb
      obtain ⟨-, -, -, rfl⟩ := hb
      have hdeps : s'.deposits = deposits_set_balance s.deposits code it.pk
          { amount := wrap64 (it.balance.amount + quantity.amount),
            symbol := it.balance.symbol } := by
        rw [hs']
      refine ⟨?_, ?_, ?_⟩
      · intro hnone
        rw [hnone] at hsome
        cases hsome
      · intro it' hit'
        rw [hsome] at hit'
        cases hit'
        refine ⟨hdeps, ?_, ?_⟩
        · intro hno
          rw [hdeps, wrap64_of_in_int64 _ hno]
        · intro x hx
          rw [hdeps]
          exact mem_deposits_set_balance_other _ _ _ _ _ hx
      · rw [hs']
        exact ⟨rfl, rfl, rfl, rfl⟩

/-- Witness of C14: a first deposit of `bob` creates the row with key 1, and a further
deposit of `alice` is added to the `100.0000 TOK` held. -/
theorem plain_deposit_effect_witness :
    starts_with "icp ".toList "deposit".toList = false ∧
    deposits_find example_state.deposits (N "eosio.token")
        (account_asset_key (N "bob") { amount := 40, symbol := TOK }) = none ∧
    icp_transfer_or_deposit example_alice_ctx (N "eosio.token") (N "bob")
        example_alice_ctx.self { amount := 40, symbol := TOK } "deposit" example_state =
      .ok { example_state with
            deposits := [example_deposit,
              { scope := N "eosio.token", pk := 1, account := N "bob",
                balance := { amount := 40, symbol := TOK } }] } ∧
    deposits_find example_state.deposits (N "eosio.token")
        (account_asset_key (N "alice") { amount := 40, symbol := TOK }) =
      some example_deposit ∧
    in_int64 (example_deposit.balance.amount + 40) ∧
    icp_transfer_or_deposit example_alice_ctx (N "eosio.token") (N "alice")
        example_alice_ctx.self { amount := 40, symbol := TOK } "deposit" example_state =
      .ok { example_state with
            deposits := [{ scope := N "eosio.token", pk := 0, account := N "alice",
                           balance := { amount := 1000040, symbol := TOK } }] } ∧
    ({ example_state with
        deposits := [{ scope := N "eosio.token", pk := 0, account := N "alice",
                       balance := { amount := 1000040, symbol := TOK } }] } : State).deposits =
      deposits_set_balance example_state.deposits (N "eosio.token") example_deposit.pk
        { amount := example_deposit.balance.amount + 40,
          symbol := example_deposit.balance.symbol } :=
  have h := plain_deposit_effect example_alice_ctx (N "eosio.token") (N "alice")
    { amount := 40, symbol := TOK } "deposit" example_state
    { example_state with
      deposits := [{ scope := N "eosio.token", pk := 0, account := N "alice",
                     balance := { amount := 1000040, symbol := TOK } }] }
    (by decide) (by rfl)
  ⟨by decide, by decide, by rfl, by decide, by decide, by rfl,
    (h.2.1 example_deposit (by decide)).2.1 (by decide)⟩

/-! ## Sign of the deposit balances -/

theorem mem_deposits_set_balance (t : List deposit_row) (c : AccountName) (pk : Nat)
    (b : asset) (x : deposit_row) (hx : x ∈ deposits_set_balance t c pk b) :
    x ∈ t ∨ x.balance = b := by
  unfold deposits_set_balance at hx
  rw [List.mem_map] at hx
  obtain ⟨y, hy, hyx⟩ := hx
  split at hyx
  · right
    rw [← hyx]
  · left
    rw [← hyx]
    exact hy

/-- Deposit balances stay non-negative in the absence of overflow.  Let every deposit
row hold a non-negative amount.  After a successful `icptransfer`, for every quantity
argument whose subtraction from the consumed balance does not overflow `int64_t`, every deposit
row still holds a non-negative amount: the consumed row is removed or left with
`balance - quantity ≥ 0`.  After a successful plain-deposit notification carrying a
positive quantity, whose addition to an existing balance does not overflow `int64_t`,
every deposit row still holds a non-negative amount. -/
theorem deposits_stay_nonnegative (ctx : Context) (contract from_ icp_to : AccountName)
    (quantity : asset) (memo : String) (expiration : Nat) (s s' : State)
    (hnn : ∀ r ∈ s.deposits, 0 ≤ r.balance.amount) :
    (∀ dp, deposits_find s.deposits contract (account_asset_key from_ quantity) = some dp →
      in_int64 (dp.balance.amount - quantity.amount) →
      icptransfer ctx contract from_ icp_to quantity memo expiration s = .ok s' →
      (∀ r ∈ s'.deposits, 0 ≤ r.balance.amount) ∧
      (dp.balance.amount ≠ quantity.amount → 0 ≤ dp.balance.amount - quantity.amount)) ∧
    (starts_with "icp ".toList memo.toList = false → 0 < quantity.amount →
      (∀ it, deposits_find s.deposits contract (account_asset_key from_ quantity) = some it →
        in_int64 (it.balance.amount + quantity.amount)) →
      icp_transfer_or_deposit ctx contract from_ ctx.self quantity memo s = .ok s' →
      ∀ r ∈ s'.deposits, 0 ≤ r.balance.amount) := by
  constructor
  · intro dp hfind hno hok
    have hdep := icptransfer_deposits ctx contract from_ icp_to quantity memo expiration
      s s' dp hfind hno hok
    rw [icptransfer_ok_iff] at hok
    obtain ⟨dp', dps, -, hfind', hle, -, -⟩ := hok
    rw [hfind] at hfind'
    cases hfind'
    refine ⟨?_, fun _ => by omega⟩
    intro r hr
    rw [hdep] at hr
    split at hr
    · rw [mem_deposits_erase] at hr
      exact hnn r hr.1
    · rcases mem_deposits_set_balance _ _ _ _ _ hr with h | h
      · exact hnn r h
      · rw [h]
        simp only []
        omega
  · intro hmemo hpos hno hok
    rcases icp_transfer_or_deposit_ok_cases _ _ _ _ _ _ _ _ hok with
      ⟨hne, -⟩ | ⟨-, hdir, -⟩ | ⟨-, -, hdep⟩
    · exact absurd rfl hne
    · rw [hmemo] at hdir
      cases hdir
    · rcases hdep with ⟨-, pk, -, hem, -⟩ | ⟨it, b, hsome, hb, hs'⟩
      · rw [deposits_emplace_ok_iff] at hem
        intro r hr
        rw [hem.2, List.mem_append, List.mem_singleton] at hr
        rcases hr with h | h
        · exact hnn r h
        · rw [h]
          simp only []
          omega
      · rw [add_assign_ok_iff] at hb
        obtain ⟨-, -, -, rfl⟩ := hb
        have hmem := (deposits_find_some _ _ _ _ _ hsome).1
        have hit := hnn it hmem
        intro r hr
        rw [hs'] at hr
        rcases mem_deposits_set_balance _ _ _ _ _ hr with h | h
        · exact hnn r h
        · rw [h, wrap64_of_in_int64 _ (hno it hsome)]
          simp only []
          omega

/-- Example of the sign of the balances: after bridging `40.0000 TOK` of the deposit,
and after a further deposit of `0.0040 TOK`, the deposit row holds a non-negative
amount. -/
theorem deposits_stay_nonnegative_witness :
    (∀ r ∈ example_state.deposits, 0 ≤ r.balance.amount) ∧
    deposits_find example_state.deposits (N "eosio.token")
        (account_asset_key (N "alice") { amount := 400000, symbol := TOK }) =
      some example_deposit ∧
    in_int64 (example_deposit.balance.amount - 400000) ∧
    icptransfer example_alice_ctx (N "eosio.token") (N "alice") (N "bob")
        { amount := 400000, symbol := TOK } "" 100 example_state =
      .ok example_after_icptransfer ∧
    (∀ r ∈ example_after_icptransfer.deposits, 0 ≤ r.balance.amount) ∧
    starts_with "icp ".toList "deposit".toList = false ∧
    in_int64 (example_deposit.balance.amount + 40) ∧
    icp_transfer_or_deposit example_alice_ctx (N "eosio.token") (N "alice")
        example_alice_ctx.self { amount := 40, symbol := TOK } "deposit" example_state =
      .ok { example_state with
            deposits := [{ scope := N "eosio.token", pk := 0, account := N "alice",
                           balance := { amount := 1000040, symbol := TOK } }] } ∧
    (∀ r ∈ ({ example_state with
        deposits := [{ scope := N "eosio.token", pk := 0, account := N "alice",
                       balance := { amount := 1000040, symbol := TOK } }] } : State).deposits,
      0 ≤ r.balance.amount) :=
  have h := deposits_stay_nonnegative example_alice_ctx (N "eosio.token") (N "alice")
    (N "bob") { amount := 400000, symbol := TOK } "" 100 example_state
    example_after_icptransfer (by decide)
  have h2 := deposits_stay_nonnegative example_alice_ctx (N "eosio.token") (N "alice")
    (N "bob") { amount := 40, symbol := TOK } "deposit" 100 example_state
    { example_state with
      deposits := [{ scope := N "eosio.token", pk := 0, account := N "alice",
                     balance := { amount := 1000040, symbol := TOK } }] } (by decide)
  ⟨by decide, by decide, by decide, by rfl,
    (h.1 example_deposit (by decide) (by decide) (by rfl)).1,
    by decide, by decide, by rfl,
    h2.2 (by decide) (by decide) (by decide) (by rfl)⟩

/-- C17: `icptransfer` does not reject a non-positive quantity.  On the sample deposit
of `100.0000 TOK`, the call with the quantity `-40.0000 TOK` succeeds: it raises the
deposit to `140.0000 TOK`, creates the escrow row of sequence 3 with the balance
`-40.0000 TOK` and sends the packet; the call with the quantity `0.0000 TOK` succeeds
as well and creates an escrow row of amount zero. -/
theorem icptransfer_accepts_nonpositive :
    (icptransfer example_alice_ctx (N "eosio.token") (N "alice") (N "bob")
        { amount := -400000, symbol := TOK } "" 100 example_state).toOption.map
      (fun s1 => (s1.deposits, s1.locked, s1.actions.length)) =
      some ([{ scope := N "eosio.token", pk := 0, account := N "alice",
               balance := { amount := 1400000, symbol := TOK } }],
        [example_escrow, example_escrow_other,
          { seq := 3, contract := N "eosio.token", account := N "alice",
            balance := { amount := -400000, symbol := TOK }, refund := false }], 1) ∧
    (icptransfer example_alice_ctx (N "eosio.token") (N "alice") (N "bob")
        { amount := 0, symbol := TOK } "" 100 example_state).toOption.map
      (fun s1 => (s1.deposits, s1.locked, s1.actions.length)) =
      some ([example_deposit],
        [example_escrow, example_escrow_other,
          { seq := 3, contract := N "eosio.token", account := N "alice",
            balance := { amount := 0, symbol := TOK }, refund := false }], 1) ∧
    commit (icptransfer example_alice_ctx (N "eosio.token") (N "alice") (N "bob")
        { amount := -400000, symbol := TOK } "" 100) example_state ≠ example_state := by
  decide

/-- Outside the `int64_t` range the addition of `asset::operator+=` wraps around as
well: a plain deposit of `2^63 - 1` on top of a deposit of `2^63 - 1` passes the range
checks and leaves the row with the amount `-2`. -/
theorem plain_deposit_wraps_outside_int64 :
    (icp_transfer_or_deposit example_alice_ctx (N "eosio.token") (N "alice")
        example_alice_ctx.self { amount := 2 ^ 63 - 1, symbol := TOK } "deposit"
        { example_state with
          deposits := [{ scope := N "eosio.token", pk := 0, account := N "alice",
                         balance := { amount := 2 ^ 63 - 1, symbol := TOK } }] }).toOption.map
      (fun s1 => s1.deposits.map fun r => r.balance.amount) = some [-2] := by
  decide

/-! ## Configuration -/

theorem icprefund_co (ctx : Context) (contract from_ icp_to : AccountName)
    (quantity : asset) (memo : String) (expiration : Nat) (s s' : State)
    (hok : icprefund ctx contract from_ icp_to quantity memo expiration s = .ok s') :
    s'.co = s.co := by
  rw [icprefund_ok_iff] at hok
  obtain ⟨-, -, s1, hburn, htr⟩ := hok
  have hfr := burn_frame _ _ _ _ _ _ hburn
  have hd := (icp_transfer_ok_iff _ _ _ _ _ _ _ _ _ _).1 htr
  obtain ⟨-, -, -, rfl⟩ := hd
  exact hfr.1

theorem icpreceive_co (ctx : Context) (contract icp_from to_ : AccountName)
    (quantity : asset) (memo : String) (refund : Nat) (s s' : State)
    (hok : icpreceive ctx contract icp_from to_ quantity memo refund s = .ok s') :
    s'.co = s.co := by
  unfold icpreceive at hok
  cases h1 : require_auth2 ctx ctx.self N_callback with
  | error e => simp [h1, bind, Except.bind] at hok
  | ok u =>
    by_cases h2 : memo.utf8ByteSize ≤ 256
    · by_cases h3 : refund = 0
      · simp only [h1, bind, Except.bind, check, h2, h3, decide_True, if_true] at hok
        exact (mint_frame _ _ _ _ _ _ hok).1
      · simp [h1, bind, Except.bind, check, h2, h3, pure, Except.pure, send] at hok
        rw [← hok]
    · simp [h1, bind, Except.bind, check, h2] at hok

theorem icpreceipt_co (ctx : Context) (seq status : Nat) (data : List Nat) (s s' : State)
    (h : icpreceipt ctx seq status data s = .ok s') : s'.co = s.co := by
  unfold icpreceipt at h
  cases h1 : require_auth2 ctx ctx.self N_callback with
  | error e => simp [h1, bind, Except.bind] at h
  | ok u =>
    simp only [h1, bind, Except.bind] at h
    cases h2 : locked_find s.locked seq with
    | none =>
      simp only [h2, pure, Except.pure] at h
      cases h
      rfl
    | some it =>
      simp only [h2] at h
      by_cases hst : status = ctx.expired
      · cases hrf : it.refund
        · simp [hst, hrf, pure, Except.pure, send] at h
          subst h; rfl
        · simp only [hst, hrf, if_true, Bool.not_true] at h
          cases hm : mint ctx it.contract it.account it.balance s with
          | error e => simp [hm] at h
          | ok s1 =>
            simp [hm, pure, Except.pure] at h
            subst h
            exact (mint_frame _ _ _ _ _ _ hm).1
      · simp [hst, pure, Except.pure] at h
        subst h; rfl

/-- C19: configuration is set once.  Invoked with the contract's own authority,
`setcontracts(icp, peer)` succeeds exactly when no configuration is stored, and then
stores exactly `(icp, peer)` and nothing else changes; when a configuration is stored
it fails with "contracts already exist" and the state stays as it was; so after a
successful call every later `setcontracts` fails.  No other handler writes the
configuration: `icptransfer`, `icprefund`, `icpreceive`, `icpreceipt` and the
notification handler leave it as it is. -/
theorem setcontracts_once (ctx : Context) (icp peer : AccountName) (s : State)
    (hauth : has_auth ctx ctx.self) :
    (s.co = none →
      setcontracts ctx icp peer s = .ok { s with co := some { icp := icp, peer := peer } }) ∧
    (∀ c, s.co = some c →
      setcontracts ctx icp peer s = .error "contracts already exist" ∧
      commit (setcontracts ctx icp peer) s = s) ∧
    (∀ s', setcontracts ctx icp peer s = .ok s' →
      s.co = none ∧ s' = { s with co := some { icp := icp, peer := peer } } ∧
      ∀ icp' peer', setcontracts ctx icp' peer' s' = .error "contracts already exist" ∧
        (commit (setcontracts ctx icp' peer') s').co = some { icp := icp, peer := peer }) ∧
    (∀ (cx : Context) (t t' : State) (c f g : AccountName) (q : asset) (m : String)
        (x y : Nat) (d : List Nat),
      (icptransfer cx c f g q m x t = .ok t' ∨ icprefund cx c f g q m x t = .ok t' ∨
        icpreceive cx c f g q m y t = .ok t' ∨ icpreceipt cx x y d t = .ok t' ∨
        icp_transfer_or_deposit cx c f g q m t = .ok t') →
      t'.co = t.co) := by
  have hnone : ∀ t : State, t.co = none → ∀ a b,
      setcontracts ctx a b t = .ok { t with co := some { icp := a, peer := b } } := by
    intro t ht a b
    unfold setcontracts
    rw [require_auth_of_has_auth ctx ctx.self hauth]
    simp [bind, Except.bind, ht, check, pure, Except.pure]
  have hsome : ∀ t : State, ∀ c, t.co = some c → ∀ a b,
      setcontracts ctx a b t = .error "contracts already exist" := by
    intro t c ht a b
    unfold setcontracts
    rw [require_auth_of_has_auth ctx ctx.self hauth]
    simp [bind, Except.bind, ht, check]
  refine ⟨fun h => hnone s h icp peer, ?_, ?_, ?_⟩
  · intro c hc
    refine ⟨hsome s c hc icp peer, ?_⟩
    unfold commit
    rw [hsome s c hc icp peer]
  · intro s' hok
    cases hco : s.co with
    | some c =>
      rw [hsome s c hco icp peer] at hok
      cases hok
    | none =>
      rw [hnone s hco icp peer] at hok
      cases hok
      refine ⟨rfl, rfl, ?_⟩
      intro icp' peer'
      have herr := hsome { s with co := some { icp := icp, peer := peer } }
        { icp := icp, peer := peer } rfl icp' peer'
      refine ⟨herr, ?_⟩
      unfold commit
      rw [herr]
  · intro cx t t' c f g q m x y d h
    rcases h with h | h | h | h | h
    · exact (icptransfer_frame _ _ _ _ _ _ _ _ _ h).2.2
    · exact icprefund_co _ _ _ _ _ _ _ _ _ h
    · exact icpreceive_co _ _ _ _ _ _ _ _ _ h
    · exact icpreceipt_co _ _ _ _ _ _ h
    · exact (icp_transfer_or_deposit_frame _ _ _ _ _ _ _ _ h).2.2

/-- Witness of C19: the first `setcontracts` stores the two names, a second one is
rejected. -/
theorem setcontracts_once_witness :
    has_auth example_callback_ctx example_callback_ctx.self ∧
    setcontracts example_callback_ctx (N "icp") (N "peertoken")
        { example_state with co := none } = .ok example_state ∧
    setcontracts example_callback_ctx (N "icp") (N "other") example_state =
      .error "contracts already exist" :=
  have h := setcontracts_once example_callback_ctx (N "icp") (N "peertoken")
    { example_state with co := none } (by decide)
  have h2 := setcontracts_once example_callback_ctx (N "icp") (N "other") example_state
    (by decide)
  ⟨by decide, h.1 rfl, (h2.2.1 _ rfl).1⟩

/-! ## Unvalidated quantities on the deposit side -/

/-- C10: `icptransfer` does not conserve deposits plus escrow on every successful call.
A plain-deposit notification of `2^63 - 1` stores that amount in the deposit row of
`alice` (the table has unique keys; deposits plus non-refund escrow of the symbol are
`2^63 - 1 + 1000000`).  The call of `icptransfer` with the quantity `-2^63` then
succeeds: the only check, `balance >= quantity`, passes, `balance -= quantity` wraps to
`-1` and passes the range checks, and the escrow row gets `-2^63`.  The deposit side
has lost `2^63`, the escrow side has gained `-2^63`, and the total is
`-1 + (1000000 - 2^63)`, not the total before. -/
theorem icptransfer_breaks_conservation :
    icp_transfer_or_deposit example_alice_ctx (N "eosio.token") (N "alice")
        example_alice_ctx.self { amount := 2 ^ 63 - 1, symbol := TOK } "deposit"
        example_no_deposit_state = .ok example_large_deposit_state ∧
    deposits_keys_unique example_large_deposit_state.deposits ∧
    deposit_total example_large_deposit_state.deposits (N "eosio.token") TOK +
        escrow_total example_large_deposit_state.locked (N "eosio.token") TOK =
      (2 ^ 63 - 1) + 1000000 ∧
    (icptransfer example_alice_ctx (N "eosio.token") (N "alice") (N "bob")
        { amount := -2 ^ 63, symbol := TOK } "" 100 example_large_deposit_state).toOption.map
      (fun s1 => (deposit_total s1.deposits (N "eosio.token") TOK,
        escrow_total s1.locked (N "eosio.token") TOK, s1.actions.length)) =
      some (-1, 1000000 - 2 ^ 63, 1) ∧
    (-1 : Int) + (1000000 - 2 ^ 63) ≠ (2 ^ 63 - 1) + 1000000 :=
  ⟨by rfl, by decide, by decide, by decide, by decide⟩

/-- C16: deposit balances do not stay non-negative on every successful call.  In the
state whose only deposit row holds `2^63 - 1` (every balance is non-negative), the call
of `icptransfer` with the quantity `-2^63` succeeds and leaves the row with the amount
`-1`; and a plain-deposit notification carrying the positive quantity `2^63 - 1`
succeeds and leaves the row with the amount `-2`. -/
theorem deposits_turn_negative :
    (∀ r ∈ example_large_deposit_state.deposits, 0 ≤ r.balance.amount) ∧
    (icptransfer example_alice_ctx (N "eosio.token") (N "alice") (N "bob")
        { amount := -2 ^ 63, symbol := TOK } "" 100 example_large_deposit_state).toOption.map
      (fun s1 => s1.deposits.map fun r => r.balance.amount) = some [-1] ∧
    starts_with "icp ".toList "deposit".toList = false ∧
    (0 : Int) < 2 ^ 63 - 1 ∧
    (icp_transfer_or_deposit example_alice_ctx (N "eosio.token") (N "alice")
        example_alice_ctx.self { amount := 2 ^ 63 - 1, symbol := TOK } "deposit"
        example_large_deposit_state).toOption.map
      (fun s1 => s1.deposits.map fun r => r.balance.amount) = some [-2] :=
  ⟨by decide, by decide, by decide, by decide, by decide⟩

end icp
